import Mathlib

/-!
# mixpay-go: request construction and envelope decoding

A shallow embedding of `src/mixpay.go`.  Go strings are byte sequences, so they
are modelled as lists of bytes.  The parts of the Go standard library the client
calls (`net/url`, `strconv`, `net/http`, `encoding/json`, `io`) and of
`shopspring/decimal` are modelled next to the code that uses them.
-/

namespace Mixpay

/-! ## Go strings -/

/-- One byte of a Go string. -/
abbrev Byte := Fin 256

/-- A Go `string` / `[]byte`: a finite sequence of bytes. -/
abbrev Bytes := List Byte

/-- The bytes of a string literal (its UTF-8 encoding, as in Go source code). -/
def str (s : String) : Bytes :=
  s.data.flatMap fun c => (String.utf8EncodeChar c).map fun b => Fin.ofNat b.toNat

/-- Go's `a <= b` on strings: bytewise lexicographic order. -/
def bytesLe : Bytes → Bytes → Bool
  | [], _ => true
  | _ :: _, [] => false
  | a :: as, b :: bs => decide (a < b) || (a == b && bytesLe as bs)

/-! ## strconv -/

/-- The decimal digits of a natural number, most significant first. -/
def natDigits (n : Nat) : Bytes :=
  (Nat.toDigits 10 n).map fun c => Fin.ofNat c.toNat

/-- Go's `strconv.FormatInt(i, 10)`: signed base-10 rendering. -/
def FormatInt (i : Int) : Bytes :=
  if i < 0 then 45 :: natDigits i.natAbs else natDigits i.toNat

/-! ## net/url -/

/-- Go's `shouldEscape(c, encodeQueryComponent)`: everything except the
unreserved characters (alphanumerics and `-`, `_`, `.`, `~`) is escaped. -/
def shouldEscape (c : Byte) : Bool :=
  !((97 ≤ c && c ≤ 122) || (65 ≤ c && c ≤ 90) || (48 ≤ c && c ≤ 57)
    || c == 45 || c == 95 || c == 46 || c == 126)

/-- Go's `upperhex[n]` for a nibble `n`. -/
def upperhex (n : Nat) : Byte :=
  if n < 10 then Fin.ofNat (48 + n) else Fin.ofNat (55 + n)

/-- Go's `ishex`. -/
def ishex (c : Byte) : Bool :=
  (48 ≤ c && c ≤ 57) || (97 ≤ c && c ≤ 102) || (65 ≤ c && c ≤ 70)

/-- Go's `unhex`. -/
def unhex (c : Byte) : Nat :=
  if 48 ≤ c ∧ c ≤ 57 then c.val - 48
  else if 97 ≤ c ∧ c ≤ 102 then c.val - 97 + 10
  else if 65 ≤ c ∧ c ≤ 70 then c.val - 65 + 10
  else 0

/-- The escaped form of one byte in `QueryEscape`: a space becomes `+`, another
byte that must be escaped becomes `%XX` (upper-case hex), the rest is kept. -/
def escapeByte (c : Byte) : Bytes :=
  if c = 32 then [43]
  else if shouldEscape c then [37, upperhex (c.val / 16), upperhex (c.val % 16)]
  else [c]

/-- Go's `url.QueryEscape`. -/
def QueryEscape (s : Bytes) : Bytes :=
  s.flatMap escapeByte

/-- Go's `url.QueryUnescape`; `none` is the `EscapeError` of a malformed `%`
sequence. -/
def QueryUnescape : Bytes → Option Bytes
  | [] => some []
  | c :: rest =>
    if c = 37 then
      match rest with
      | h :: l :: rest2 =>
        if ishex h && ishex l then
          (QueryUnescape rest2).map fun t => Fin.ofNat (unhex h * 16 + unhex l) :: t
        else none
      | _ => none
    else if c = 43 then (QueryUnescape rest).map fun t => 32 :: t
    else (QueryUnescape rest).map fun t => c :: t

/-- Go's `url.Values` (`map[string][]string`) as an association list with one
entry per key. -/
abbrev Values := List (Bytes × List Bytes)

/-- The map lookup `v[key]` together with its presence flag. -/
def Values.find : Values → Bytes → Option (List Bytes)
  | [], _ => none
  | (k, vs) :: rest, key => if k = key then some vs else Values.find rest key

/-- The slice `v[key]` (empty when the key is absent). -/
def Values.vals (v : Values) (key : Bytes) : List Bytes :=
  (v.find key).getD []

/-- Go's `v.Has(key)`. -/
def Values.Has (v : Values) (key : Bytes) : Bool :=
  (v.find key).isSome

/-- Go's `v.Set(key, value)`: `v[key] = []string{value}`. -/
def Values.Set : Values → Bytes → Bytes → Values
  | [], key, value => [(key, [value])]
  | (k, vs) :: rest, key, value =>
    if k = key then (k, [value]) :: rest else (k, vs) :: Values.Set rest key value

/-- Go's `v.Add(key, value)`: `v[key] = append(v[key], value)`. -/
def Values.Add : Values → Bytes → Bytes → Values
  | [], key, value => [(key, [value])]
  | (k, vs) :: rest, key, value =>
    if k = key then (k, vs ++ [value]) :: rest else (k, vs) :: Values.Add rest key value

/-- The Go statement `if cond { v.Set(key, value) }`. -/
def Values.SetIf (v : Values) (cond : Prop) [Decidable cond] (key value : Bytes) : Values :=
  if cond then Values.Set v key value else v

/-- The keys of the map. -/
def Values.keys (v : Values) : List Bytes :=
  v.map Prod.fst

/-- Joins the `key=value` pairs with `&`, as `Encode` does through its buffer
(every pair is non-empty, so the buffer is empty only before the first pair). -/
def joinAmp : List Bytes → Bytes
  | [] => []
  | [p] => p
  | p :: q :: rest => p ++ 38 :: joinAmp (q :: rest)

/-- The `key=value` pairs that `Encode` writes, in order: keys ascending, the
values of one key in their slice order. -/
def Values.sortedPairs (v : Values) : List (Bytes × Bytes) :=
  (List.insertionSort (fun a b => bytesLe a b = true) v.keys).flatMap fun k =>
    (v.vals k).map fun x => (k, x)

/-- Go's `v.Encode()`: the URL-encoded form `k1=v1&k2=v2`, sorted by key. -/
def Values.Encode (v : Values) : Bytes :=
  joinAmp (v.sortedPairs.map fun p => QueryEscape p.1 ++ 61 :: QueryEscape p.2)

/-- The successive `key` segments that the loop of Go's `parseQuery` cuts off at
each `&` (`strings.Cut(query, "&")` until the query is empty). -/
def segments : Bytes → List Bytes
  | [] => []
  | c :: rest =>
    if c = 38 then [] :: segments rest
    else match segments rest with
      | [] => [[c]]
      | s :: ss => (c :: s) :: ss

/-- Go's `strings.Cut(s, "=")` without the found flag: the text before the first
`=` and the text after it (all of `s` and the empty string if there is none). -/
def cutEq : Bytes → Bytes × Bytes
  | [] => ([], [])
  | c :: rest => if c = 61 then ([], rest) else ((cutEq rest).1.cons c, (cutEq rest).2)

/-- The errors of `url.ParseQuery`. -/
inductive QueryError
  | semicolon
  | escape
  deriving DecidableEq, Repr

/-- Keeps the first error, as `parseQuery` does. -/
def firstError (old new : Option QueryError) : Option QueryError :=
  match old with
  | some e => some e
  | none => new

/-- One iteration of the loop of Go's `parseQuery` on a segment. -/
def parseSegment (st : Values × Option QueryError) (seg : Bytes) : Values × Option QueryError :=
  if (59 : Byte) ∈ seg then (st.1, some QueryError.semicolon)
  else if seg = [] then st
  else
    match QueryUnescape (cutEq seg).1 with
    | none => (st.1, firstError st.2 (some QueryError.escape))
    | some key =>
      match QueryUnescape (cutEq seg).2 with
      | none => (st.1, firstError st.2 (some QueryError.escape))
      | some value => (st.1.Add key value, st.2)

/-- Go's `url.ParseQuery`: the decoded form and the first error met. -/
def ParseQuery (query : Bytes) : Values × Option QueryError :=
  (segments query).foldl parseSegment ([], none)

/-! ## net/http -/

/-- Go's `http.StatusText`: the reason phrase of a status code, empty for an
unknown code. -/
def StatusText (code : Int) : Bytes :=
  match code with
  | 100 => str "Continue"
  | 101 => str "Switching Protocols"
  | 102 => str "Processing"
  | 103 => str "Early Hints"
  | 200 => str "OK"
  | 201 => str "Created"
  | 202 => str "Accepted"
  | 203 => str "Non-Authoritative Information"
  | 204 => str "No Content"
  | 205 => str "Reset Content"
  | 206 => str "Partial Content"
  | 207 => str "Multi-Status"
  | 208 => str "Already Reported"
  | 226 => str "IM Used"
  | 300 => str "Multiple Choices"
  | 301 => str "Moved Permanently"
  | 302 => str "Found"
  | 303 => str "See Other"
  | 304 => str "Not Modified"
  | 305 => str "Use Proxy"
  | 307 => str "Temporary Redirect"
  | 308 => str "Permanent Redirect"
  | 400 => str "Bad Request"
  | 401 => str "Unauthorized"
  | 402 => str "Payment Required"
  | 403 => str "Forbidden"
  | 404 => str "Not Found"
  | 405 => str "Method Not Allowed"
  | 406 => str "Not Acceptable"
  | 407 => str "Proxy Authentication Required"
  | 408 => str "Request Timeout"
  | 409 => str "Conflict"
  | 410 => str "Gone"
  | 411 => str "Length Required"
  | 412 => str "Precondition Failed"
  | 413 => str "Request Entity Too Large"
  | 414 => str "Request URI Too Long"
  | 415 => str "Unsupported Media Type"
  | 416 => str "Requested Range Not Satisfiable"
  | 417 => str "Expectation Failed"
  | 418 => str "I\x27m a teapot"
  | 421 => str "Misdirected Request"
  | 422 => str "Unprocessable Entity"
  | 423 => str "Locked"
  | 424 => str "Failed Dependency"
  | 425 => str "Too Early"
  | 426 => str "Upgrade Required"
  | 428 => str "Precondition Required"
  | 429 => str "Too Many Requests"
  | 431 => str "Request Header Fields Too Large"
  | 451 => str "Unavailable For Legal Reasons"
  | 500 => str "Internal Server Error"
  | 501 => str "Not Implemented"
  | 502 => str "Bad Gateway"
  | 503 => str "Service Unavailable"
  | 504 => str "Gateway Timeout"
  | 505 => str "HTTP Version Not Supported"
  | 506 => str "Variant Also Negotiates"
  | 507 => str "Insufficient Storage"
  | 508 => str "Loop Detected"
  | 510 => str "Not Extended"
  | 511 => str "Network Authentication Required"
  | _ => []

/-- An outbound `*http.Request` as the client builds it. -/
structure Request where
  Method : Bytes
  URL : Bytes
  Body : Bytes
  ContentType : Bytes
  deriving DecidableEq, Repr

/-- An error of the HTTP stack (connection failure, cancelled context, timeout,
failed body read); the client never inspects it. -/
structure TransportError where
  msg : Bytes
  deriving DecidableEq, Repr

/-- An `io.ReadCloser` over a response body: the bytes not read yet and the
error, if any, that the stream raises once they are consumed. -/
structure Reader where
  data : Bytes
  err : Option TransportError
  deriving DecidableEq, Repr

/-- Go's `io.ReadAll`: the bytes read, the error met (none at a clean end of
stream) and the reader afterwards, which has nothing left to give. -/
def ReadAll (r : Reader) : Bytes × Option TransportError × Reader :=
  (r.data, r.err, { data := [], err := r.err })

/-- Go's `io.NopCloser(bytes.NewReader(body))`. -/
def NewReader (body : Bytes) : Reader :=
  { data := body, err := none }

/-- The `*http.Response` fields the client uses. -/
structure Response where
  StatusCode : Int
  Body : Reader
  deriving DecidableEq, Repr

/-- The behaviour of `http.DefaultClient.Do` for a call: the network and the
caller's context decide what comes back for a request. -/
abbrev Transport := Request → Except TransportError Response

/-! ## encoding/json: syntax -/

/-- A JSON value as `encoding/json` scans it.  A number keeps its literal text
(it is converted only when stored into a Go value), a string and an object key
are unquoted, the members of an object keep their order and duplicates. -/
inductive JSON
  | null
  | bool (b : Bool)
  | num (lit : Bytes)
  | str (s : Bytes)
  | arr (elems : List JSON)
  | obj (members : List (Bytes × JSON))

/-- Go's `isSpace` of the JSON scanner. -/
def isSpace (c : Byte) : Bool :=
  c == 32 || c == 9 || c == 13 || c == 10

/-- Drops leading JSON white space. -/
def skipSpace : Bytes → Bytes
  | [] => []
  | c :: rest => if isSpace c then skipSpace rest else c :: rest

/-- An ASCII decimal digit. -/
def isDigit (c : Byte) : Bool :=
  48 ≤ c && c ≤ 57

/-- The longest run of digits at the head of the input, and what follows. -/
def takeDigits : Bytes → Bytes × Bytes
  | [] => ([], [])
  | c :: rest =>
    if isDigit c then ((takeDigits rest).1.cons c, (takeDigits rest).2) else ([], c :: rest)

/-- The integer part of a JSON number: `0`, or a non-zero digit and more digits. -/
def scanInt : Bytes → Option (Bytes × Bytes)
  | [] => none
  | c :: rest =>
    if c = 48 then some ([48], rest)
    else if isDigit c then some (c :: (takeDigits rest).1, (takeDigits rest).2)
    else none

/-- The optional fraction of a JSON number: `.` and at least one digit. -/
def scanFrac : Bytes → Option (Bytes × Bytes)
  | [] => some ([], [])
  | c :: rest =>
    if c = 46 then
      if (takeDigits rest).1 = [] then none
      else some (c :: (takeDigits rest).1, (takeDigits rest).2)
    else some ([], c :: rest)

/-- The digits of an exponent, at least one. -/
def scanExpDigits (pre : Bytes) (rest : Bytes) : Option (Bytes × Bytes) :=
  if (takeDigits rest).1 = [] then none
  else some (pre ++ (takeDigits rest).1, (takeDigits rest).2)

/-- The optional exponent of a JSON number: `e` or `E`, an optional sign and
at least one digit. -/
def scanExp : Bytes → Option (Bytes × Bytes)
  | [] => some ([], [])
  | c :: rest =>
    if c = 101 ∨ c = 69 then
      match rest with
      | [] => none
      | d :: rest2 =>
        if d = 43 ∨ d = 45 then scanExpDigits [c, d] rest2 else scanExpDigits [c] rest
    else some ([], c :: rest)

/-- Scans a JSON number literal at the head of the input: the literal and what
follows it. -/
def scanNumber (input : Bytes) : Option (Bytes × Bytes) :=
  let sign : Bytes := match input with
    | c :: _ => if c = 45 then [45] else []
    | [] => []
  match scanInt (input.drop sign.length) with
  | none => none
  | some (ip, r1) =>
    match scanFrac r1 with
    | none => none
    | some (fp, r2) =>
      match scanExp r2 with
      | none => none
      | some (ep, r3) => some (sign ++ ip ++ fp ++ ep, r3)

/-- Go's `getu4`: the code unit of a `\uXXXX` escape at the head of the input,
and what follows the escape. -/
def getu4 : Bytes → Option (Nat × Bytes)
  | b :: u :: h1 :: h2 :: h3 :: h4 :: rest =>
    if b = 92 ∧ u = 117 ∧ ishex h1 ∧ ishex h2 ∧ ishex h3 ∧ ishex h4 then
      some (((unhex h1 * 16 + unhex h2) * 16 + unhex h3) * 16 + unhex h4, rest)
    else none
  | _ => none

/-- The UTF-8 encoding of U+FFFD, the replacement character. -/
def replacementChar : Bytes := [239, 191, 189]

/-- Go's `utf8.EncodeRune`. -/
def encodeRune (r : Nat) : Bytes :=
  if r < 128 then [Fin.ofNat r]
  else if r < 2048 then [Fin.ofNat (192 + r / 64), Fin.ofNat (128 + r % 64)]
  else if 1114111 < r ∨ (55296 ≤ r ∧ r < 57344) then replacementChar
  else if r < 65536 then
    [Fin.ofNat (224 + r / 4096), Fin.ofNat (128 + r / 64 % 64), Fin.ofNat (128 + r % 64)]
  else
    [Fin.ofNat (240 + r / 262144), Fin.ofNat (128 + r / 4096 % 64),
     Fin.ofNat (128 + r / 64 % 64), Fin.ofNat (128 + r % 64)]

/-- A UTF-8 continuation byte. -/
def isCont (c : Byte) : Bool :=
  128 ≤ c && c ≤ 191

/-- The length of the well-formed multi-byte UTF-8 sequence at the head of the
input, if there is one (the cases in which Go's `utf8.DecodeRune` does not
answer `RuneError` with width 1). -/
def utf8Size : Bytes → Option Nat
  | b0 :: b1 :: rest =>
    if 194 ≤ b0 ∧ b0 ≤ 223 then (if isCont b1 then some 2 else none)
    else
      match rest with
      | [] => none
      | b2 :: rest2 =>
        if 224 ≤ b0 ∧ b0 ≤ 239 then
          if ((b0 = 224 → 160 ≤ b1) ∧ (b0 = 237 → b1 ≤ 159)) ∧ isCont b1 ∧ isCont b2
          then some 3 else none
        else
          match rest2 with
          | [] => none
          | b3 :: _ =>
            if 240 ≤ b0 ∧ b0 ≤ 244 then
              if ((b0 = 240 → 144 ≤ b1) ∧ (b0 = 244 → b1 ≤ 143)) ∧ isCont b1 ∧ isCont b2
                  ∧ isCont b3
              then some 4 else none
            else none
  | _ => none

/-- The byte a single-character escape stands for, in the JSON scanner. -/
def simpleEscape (c : Byte) : Option Byte :=
  if c = 34 ∨ c = 92 ∨ c = 47 then some c
  else if c = 98 then some 8
  else if c = 102 then some 12
  else if c = 110 then some 10
  else if c = 114 then some 13
  else if c = 116 then some 9
  else none

/-- Puts already decoded bytes in front of the rest of a decoded string. -/
def emit (pre : Bytes) (r : Option (Bytes × Bytes)) : Option (Bytes × Bytes) :=
  r.map fun p => (pre ++ p.1, p.2)

/-- Scans a JSON string after its opening quote and unquotes it as Go's
`unquoteBytes` does: the decoded text and what follows the closing quote.
Escapes are resolved, a surrogate pair of `\u` escapes becomes one code point, an
unpaired surrogate and every byte that is not well-formed UTF-8 become U+FFFD;
a control character or an unknown escape is a syntax error. -/
def scanString : Nat → Bytes → Option (Bytes × Bytes)
  | 0, _ => none
  | _ + 1, [] => none
  | fuel + 1, c :: rest =>
    if c = 34 then some ([], rest)
    else if c = 92 then
      match rest with
      | [] => none
      | e :: rest2 =>
        if e = 117 then
          match getu4 (c :: rest) with
          | none => none
          | some (r, rest3) =>
            if 55296 ≤ r ∧ r < 57344 then
              match getu4 rest3 with
              | some (r2, rest4) =>
                if r < 56320 ∧ 56320 ≤ r2 ∧ r2 < 57344 then
                  emit (encodeRune ((r - 55296) * 1024 + (r2 - 56320) + 65536))
                    (scanString fuel rest4)
                else emit replacementChar (scanString fuel rest3)
              | none => emit replacementChar (scanString fuel rest3)
            else emit (encodeRune r) (scanString fuel rest3)
        else
          match simpleEscape e with
          | some b => emit [b] (scanString fuel rest2)
          | none => none
    else if c < 32 then none
    else if c < 128 then emit [c] (scanString fuel rest)
    else
      match utf8Size (c :: rest) with
      | some n => emit ((c :: rest).take n) (scanString fuel ((c :: rest).drop n))
      | none => emit replacementChar (scanString fuel rest)

/-- Go's `maxNestingDepth`. -/
def maxNestingDepth : Nat := 10000

/-- True when the input starts with the given bytes. -/
def startsWith : Bytes → Bytes → Bool
  | [], _ => true
  | _ :: _, [] => false
  | p :: ps, c :: cs => p == c && startsWith ps cs

mutual

/-- Scans one JSON value at the head of the input (leading white space
allowed), inside `depth` open arrays and objects: the value and what follows. -/
def scanValue : Nat → Nat → Bytes → Option (JSON × Bytes)
  | 0, _, _ => none
  | fuel + 1, depth, input =>
    match skipSpace input with
    | [] => none
    | c :: rest =>
      if c = 123 then
        if maxNestingDepth ≤ depth then none
        else
          match skipSpace rest with
          | [] => none
          | d :: rest2 => if d = 125 then some (JSON.obj [], rest2)
                          else scanMembers fuel (depth + 1) (d :: rest2) []
      else if c = 91 then
        if maxNestingDepth ≤ depth then none
        else
          match skipSpace rest with
          | [] => none
          | d :: rest2 => if d = 93 then some (JSON.arr [], rest2)
                          else scanElems fuel (depth + 1) (d :: rest2) []
      else if c = 34 then
        (scanString (rest.length + 1) rest).map fun p => (JSON.str p.1, p.2)
      else if c = 45 ∨ isDigit c then
        (scanNumber (c :: rest)).map fun p => (JSON.num p.1, p.2)
      else if startsWith [116, 114, 117, 101] (c :: rest) then
        some (JSON.bool true, rest.drop 3)
      else if startsWith [102, 97, 108, 115, 101] (c :: rest) then
        some (JSON.bool false, rest.drop 4)
      else if startsWith [110, 117, 108, 108] (c :: rest) then
        some (JSON.null, rest.drop 3)
      else none

/-- Scans the elements of an array from an element on, up to the closing
bracket; `acc` holds the elements before, last first. -/
def scanElems : Nat → Nat → Bytes → List JSON → Option (JSON × Bytes)
  | 0, _, _, _ => none
  | fuel + 1, depth, input, acc =>
    match scanValue fuel depth input with
    | none => none
    | some (v, rest) =>
      match skipSpace rest with
      | [] => none
      | c :: rest2 =>
        if c = 44 then scanElems fuel depth rest2 (v :: acc)
        else if c = 93 then some (JSON.arr (v :: acc).reverse, rest2)
        else none

/-- Scans the members of an object from a key on, up to the closing brace;
`acc` holds the members before, last first. -/
def scanMembers : Nat → Nat → Bytes → List (Bytes × JSON) → Option (JSON × Bytes)
  | 0, _, _, _ => none
  | fuel + 1, depth, input, acc =>
    match skipSpace input with
    | [] => none
    | q :: rest =>
      if q = 34 then
        match scanString (rest.length + 1) rest with
        | none => none
        | some (key, rest2) =>
          match skipSpace rest2 with
          | [] => none
          | c :: rest3 =>
            if c = 58 then
              match scanValue fuel depth rest3 with
              | none => none
              | some (v, rest4) =>
                match skipSpace rest4 with
                | [] => none
                | d :: rest5 =>
                  if d = 44 then scanMembers fuel depth rest5 ((key, v) :: acc)
                  else if d = 125 then some (JSON.obj ((key, v) :: acc).reverse, rest5)
                  else none
            else none
      else none

end

/-- The JSON text of a whole input, as Go's `checkValid` accepts it and the
decoder reads it: one value with white space around it and nothing else.
`none` is a `*json.SyntaxError` (also for an empty input and for nesting deeper
than `maxNestingDepth`).  The fuel, two steps per input byte, is never used up
(`scanValue_fuel`). -/
def parseJSON (input : Bytes) : Option JSON :=
  match scanValue (2 * input.length + 2) 0 input with
  | none => none
  | some (v, rest) => if skipSpace rest = [] then some v else none

/-! ## encoding/json: storing into Go values -/

/-- The two kinds of error `json.Unmarshal` returns here. -/
inductive JsonError
  | SyntaxError
  | UnmarshalTypeError
  deriving DecidableEq, Repr

/-- Go's `strconv.ParseInt(s, 10, 64)`: an optional sign and decimal digits, in
the range of `int64`. -/
def parseInt64 (s : Bytes) : Option Int :=
  let neg : Bool := s.head? = some 45
  let body : Bytes := if s.head? = some 45 ∨ s.head? = some 43 then s.drop 1 else s
  if body = [] ∨ body.all isDigit = false then none
  else
    let un : Nat := body.foldl (fun a c => a * 10 + (c.val - 48)) 0
    if neg then (if 2 ^ 63 < un then none else some (-(un : Int)))
    else (if 2 ^ 63 ≤ un then none else some (un : Int))

/-- A struct field that `encoding/json` can fill: its JSON name (from the `json`
tag) and how a JSON value is stored into it.  `none` is a value of the wrong
JSON type (`*json.UnmarshalTypeError`), which leaves the field as it was. -/
structure Field (σ : Type) where
  name : Bytes
  store : JSON → σ → Option σ

/-- Storing into a field of kind `string`: a JSON string is stored, `null` is
ignored, anything else is a type error. -/
def storeString {σ : Type} (set : Bytes → σ → σ) : JSON → σ → Option σ
  | JSON.str s, x => some (set s x)
  | JSON.null, x => some x
  | _, _ => none

/-- Storing into a field of kind `bool`. -/
def storeBool {σ : Type} (set : Bool → σ → σ) : JSON → σ → Option σ
  | JSON.bool b, x => some (set b x)
  | JSON.null, x => some x
  | _, _ => none

/-- Storing into a field of kind `int` or `int64` (64 bits): the literal must be
an integer in range. -/
def storeInt {σ : Type} (set : Int → σ → σ) : JSON → σ → Option σ
  | JSON.num lit, x => (parseInt64 lit).map fun n => set n x
  | JSON.null, x => some x
  | _, _ => none

/-- Storing into a `json.RawMessage` field: every value, `null` included, is
kept as it is. -/
def storeRaw {σ : Type} (set : JSON → σ → σ) : JSON → σ → Option σ
  | v, x => some (set v x)

/-- Storing into a field of type `any`: `null` clears it, another value is kept.
The value stays a JSON value here, the conversion of its numbers to `float64`
is not modelled. -/
def storeAny {σ : Type} (set : Option JSON → σ → σ) : JSON → σ → Option σ
  | JSON.null, x => some (set none x)
  | v, x => some (set (some v) x)

/-- The case folding under which `encoding/json` matches an object key with a
field name: ASCII letters fold to upper case, and the two non-ASCII characters
that fold to an ASCII letter, U+017F (long s) and U+212A (Kelvin sign), fold to
`S` and `K`. -/
def foldNameAux : Nat → Bytes → Bytes
  | 0, _ => []
  | _ + 1, [] => []
  | fuel + 1, c :: rest =>
    if 97 ≤ c ∧ c ≤ 122 then Fin.ofNat (c.val - 32) :: foldNameAux fuel rest
    else if startsWith [197, 191] (c :: rest) then 83 :: foldNameAux fuel (rest.drop 1)
    else if startsWith [226, 132, 170] (c :: rest) then 75 :: foldNameAux fuel (rest.drop 2)
    else c :: foldNameAux fuel rest

/-- The folded form of a whole name (one step of fuel per byte is enough). -/
def foldName (s : Bytes) : Bytes :=
  foldNameAux s.length s

/-- The field an object key denotes: the one with exactly that name, else the
one whose name matches under case folding. -/
def findField {σ : Type} (fields : List (Field σ)) (key : Bytes) : Option (Field σ) :=
  match fields.find? fun f => f.name = key with
  | some f => some f
  | none => fields.find? fun f => foldName f.name = foldName key

/-- Go's `saveError`: the first error is the one reported. -/
def saveError (old : Option JsonError) (e : JsonError) : Option JsonError :=
  match old with
  | some e0 => some e0
  | none => some e

/-- Stores one object member into the struct: an unknown key is skipped, a
value of the wrong type is recorded as an error and decoding goes on. -/
def storeMember {σ : Type} (fields : List (Field σ)) (st : σ × Option JsonError)
    (m : Bytes × JSON) : σ × Option JsonError :=
  match findField fields m.1 with
  | none => st
  | some f =>
    match f.store m.2 st.1 with
    | some x => (x, st.2)
    | none => (st.1, saveError st.2 JsonError.UnmarshalTypeError)

/-- Stores a JSON value into a struct with the given fields: an object fills
the fields member by member, `null` changes nothing, any other value is a type
error. -/
def storeStruct {σ : Type} (fields : List (Field σ)) (v : JSON) (x : σ) : σ × Option JsonError :=
  match v with
  | JSON.obj members => members.foldl (storeMember fields) (x, none)
  | JSON.null => (x, none)
  | _ => (x, some JsonError.UnmarshalTypeError)

/-- Go's `json.Unmarshal(data, &x)` for a target whose type stores values by
`store`: a syntax error leaves the target untouched. -/
def Unmarshal {α : Type} (store : JSON → α → α × Option JsonError) (data : Bytes) (x : α) :
    α × Option JsonError :=
  match parseJSON data with
  | none => (x, some JsonError.SyntaxError)
  | some v => store v x

/-- Go's `json.Unmarshal(raw, &x)` on a `json.RawMessage`.  The raw message is
represented by the value its bytes were scanned as (`none` when the field was
never set and holds no bytes, which is a syntax error). -/
def UnmarshalRaw {α : Type} (store : JSON → α → α × Option JsonError) (raw : Option JSON)
    (x : α) : α × Option JsonError :=
  match raw with
  | none => (x, some JsonError.SyntaxError)
  | some v => store v x

/-! ## mixpay.go -/

/-- The `Client` struct. -/
structure Client where
  host : Bytes
  deriving DecidableEq, Repr

/-- Go `New`. -/
def New : Client :=
  { host := str "https://api.mixpay.me" }

/-- The `Error` struct: `Code` and `Message` come from the JSON envelope,
`StatusCode` and `Raw` carry the tag `json:"-"`. -/
structure Error where
  Code : Int
  Message : Bytes
  StatusCode : Int
  Raw : Bytes
  deriving DecidableEq, Repr

/-- The anonymous struct `resp` of `parseResponse`, which embeds `Error`. -/
structure Envelope extends Error where
  Data : Option JSON
  TimestampMs : Int
  Success : Bool

/-- The zero value of `resp`. -/
def Envelope.zero : Envelope :=
  { Code := 0, Message := [], StatusCode := 0, Raw := [], Data := none, TimestampMs := 0,
    Success := false }

/-- The fields of `resp` that `encoding/json` fills: those with a `json` name. -/
def envelopeFields : List (Field Envelope) :=
  [ { name := str "code", store := storeInt fun n e => { e with Code := n } },
    { name := str "message", store := storeString fun m e => { e with Message := m } },
    { name := str "data", store := storeRaw fun d e => { e with Data := some d } },
    { name := str "timestampMs", store := storeInt fun n e => { e with TimestampMs := n } },
    { name := str "success", store := storeBool fun b e => { e with Success := b } } ]

/-- The `error` values the client returns. -/
inductive GoError
  | transport (e : TransportError)
  | api (e : Error)
  | json (e : JsonError)
  deriving DecidableEq, Repr

/-- How `encoding/json` stores a JSON value into a Go value of type `α`: the
value afterwards and the error, if any.  A non-nil target `v` of `parseResponse`
is a pointer to such a value. -/
abbrev Store (α : Type) := JSON → α → α × Option JsonError

/-- What a call of `parseResponse` leaves behind: the response `r` (its body
replaced), the value the target points to and the returned error. -/
structure Outcome (α : Type) where
  r : Response
  v : α
  err : Option GoError

/-- Go `parseResponse`.  The target `v` is nil (`none`) or a pointer to a value
`x` of a type whose decoding is `store` (`some store`). -/
def parseResponse {α : Type} (r : Response) (v : Option (Store α)) (x : α) : Outcome α :=
  match ReadAll r.Body with
  | (_, some e, rd) => { r := { r with Body := rd }, v := x, err := some (GoError.transport e) }
  | (body, none, _) =>
    let r1 : Response := { r with Body := NewReader body }
    let resp0 : Envelope := { Envelope.zero with StatusCode := r1.StatusCode }
    let resp1 : Envelope :=
      match Unmarshal (storeStruct envelopeFields) body resp0 with
      | (e, some _) =>
        { e with Success := false, Code := r1.StatusCode, Message := StatusText r1.StatusCode }
      | (e, none) => e
    if resp1.Success then
      match v with
      | some store =>
        { r := r1, v := (UnmarshalRaw store resp1.Data x).1,
          err := (UnmarshalRaw store resp1.Data x).2.map GoError.json }
      | none => { r := r1, v := x, err := none }
    else
      { r := r1, v := x, err := some (GoError.api { resp1.toError with Raw := body }) }

/-- What an operation of the client does: the request it hands to the HTTP
client, and the pair `(result, error)` it returns. -/
structure Call (α : Type) where
  sent : Request
  result : Option α
  err : Option GoError

/-- The `CreateOneTimePaymentRequest` struct. -/
structure CreateOneTimePaymentRequest where
  PayeeId : Bytes
  QuoteAmount : Bytes
  QuoteAssetId : Bytes
  SettlementAssetId : Bytes
  OrderId : Bytes
  StrictMode : Bool
  PaymentAssetId : Bytes
  Remark : Bytes
  ExpireSeconds : Int
  TraceId : Bytes
  SettlementMemo : Bytes
  ReturnTo : Bytes
  FailedReturnTo : Bytes
  CallbackUrl : Bytes
  ExpiredTimestamp : Int
  deriving DecidableEq, Repr

/-- The `CreateOneTimePaymentResponse` struct. -/
structure CreateOneTimePaymentResponse where
  Code : Bytes
  CodeURL : Bytes
  deriving DecidableEq, Repr

/-- Go `CreateOneTimePaymentResponse.PaymentLink`. -/
def CreateOneTimePaymentResponse.PaymentLink (r : CreateOneTimePaymentResponse) : Bytes :=
  str "https://mixpay.me/code/" ++ r.Code

/-- The fields of `CreateOneTimePaymentResponse` by their `json` names. -/
def createOneTimePaymentResponseFields : List (Field CreateOneTimePaymentResponse) :=
  [ { name := str "code", store := storeString fun c r => { r with Code := c } },
    { name := str "codeUrl", store := storeString fun u r => { r with CodeURL := u } } ]

/-- The form `values` that `CreateOneTimePayment` builds from its request. -/
def createOneTimePaymentValues (req : CreateOneTimePaymentRequest) : Values :=
  let values : Values := []
  let values := Values.Set values (str "payeeId") req.PayeeId
  let values := Values.Set values (str "quoteAmount") req.QuoteAmount
  let values := Values.Set values (str "quoteAssetId") req.QuoteAssetId
  let values := Values.Set values (str "settlementAssetId") req.SettlementAssetId
  let values := Values.Set values (str "orderId") req.OrderId
  let values := Values.SetIf values (req.StrictMode = true) (str "strictMode") (str "true")
  let values := Values.SetIf values (req.PaymentAssetId ≠ []) (str "paymentAssetId")
    req.PaymentAssetId
  let values := Values.SetIf values (req.Remark ≠ []) (str "remark") req.Remark
  let values := Values.SetIf values (req.ExpireSeconds ≠ 0) (str "expireSeconds")
    (FormatInt req.ExpireSeconds)
  let values := Values.SetIf values (req.TraceId ≠ []) (str "traceId") req.TraceId
  let values := Values.SetIf values (req.SettlementMemo ≠ []) (str "settlementMemo")
    req.SettlementMemo
  let values := Values.SetIf values (req.ReturnTo ≠ []) (str "returnTo") req.ReturnTo
  let values := Values.SetIf values (req.FailedReturnTo ≠ []) (str "failedReturnTo")
    req.FailedReturnTo
  let values := Values.SetIf values (req.CallbackUrl ≠ []) (str "callbackUrl") req.CallbackUrl
  let values := Values.SetIf values (req.ExpiredTimestamp ≠ 0) (str "expiredTimestamp")
    (FormatInt req.ExpiredTimestamp)
  values

/-- Go `Client.CreateOneTimePayment`, with the HTTP client's behaviour `Do`. -/
def CreateOneTimePayment (Do : Transport) (c : Client) (req : CreateOneTimePaymentRequest) :
    Call CreateOneTimePaymentResponse :=
  let r : Request :=
    { Method := str "POST", URL := c.host ++ str "/v1/one_time_payment",
      Body := Values.Encode (createOneTimePaymentValues req),
      ContentType := str "application/x-www-form-urlencoded" }
  match Do r with
  | Except.error e => { sent := r, result := none, err := some (GoError.transport e) }
  | Except.ok resp =>
    let out := parseResponse resp (some (storeStruct createOneTimePaymentResponseFields))
      ({ Code := [], CodeURL := [] } : CreateOneTimePaymentResponse)
    match out.err with
    | some e => { sent := r, result := none, err := some e }
    | none => { sent := r, result := some out.v, err := none }

/-- The `GetPaymentResultRequest` struct. -/
structure GetPaymentResultRequest where
  TraceId : Bytes
  OrderId : Bytes
  PayeeId : Bytes
  deriving DecidableEq, Repr

/-- The `GetPaymentResultResponse` struct.  `Date` has type `any`; it holds the
JSON value it was given. -/
structure GetPaymentResultResponse where
  Raw : Bytes
  Status : Bytes
  QuoteAmount : Bytes
  QuoteSymbol : Bytes
  QuoteAssetID : Bytes
  PaymentAmount : Bytes
  PaymentSymbol : Bytes
  PaymentAssetID : Bytes
  Payee : Bytes
  PayeeID : Bytes
  PayeeMixinNumber : Bytes
  PayeeAvatarURL : Bytes
  Txid : Bytes
  Date : Option JSON
  SurplusAmount : Bytes
  SurplusStatus : Bytes
  Confirmations : Int
  PayableAmount : Bytes
  FailureCode : Bytes
  FailureReason : Bytes
  ReturnTo : Bytes
  TraceID : Bytes

/-- The zero value of `GetPaymentResultResponse`. -/
def GetPaymentResultResponse.zero : GetPaymentResultResponse :=
  { Raw := [], Status := [], QuoteAmount := [], QuoteSymbol := [], QuoteAssetID := [],
    PaymentAmount := [], PaymentSymbol := [], PaymentAssetID := [], Payee := [], PayeeID := [],
    PayeeMixinNumber := [], PayeeAvatarURL := [], Txid := [], Date := none, SurplusAmount := [],
    SurplusStatus := [], Confirmations := 0, PayableAmount := [], FailureCode := [],
    FailureReason := [], ReturnTo := [], TraceID := [] }

/-- The fields of `GetPaymentResultResponse` by their `json` names (`Raw` has
the tag `json:"-"`). -/
def getPaymentResultResponseFields : List (Field GetPaymentResultResponse) :=
  [ { name := str "status", store := storeString fun s r => { r with Status := s } },
    { name := str "quoteAmount", store := storeString fun s r => { r with QuoteAmount := s } },
    { name := str "quoteSymbol", store := storeString fun s r => { r with QuoteSymbol := s } },
    { name := str "quoteAssetId", store := storeString fun s r => { r with QuoteAssetID := s } },
    { name := str "paymentAmount",
      store := storeString fun s r => { r with PaymentAmount := s } },
    { name := str "paymentSymbol",
      store := storeString fun s r => { r with PaymentSymbol := s } },
    { name := str "paymentAssetId",
      store := storeString fun s r => { r with PaymentAssetID := s } },
    { name := str "payee", store := storeString fun s r => { r with Payee := s } },
    { name := str "payeeId", store := storeString fun s r => { r with PayeeID := s } },
    { name := str "payeeMixinNumber",
      store := storeString fun s r => { r with PayeeMixinNumber := s } },
    { name := str "payeeAvatarUrl",
      store := storeString fun s r => { r with PayeeAvatarURL := s } },
    { name := str "txid", store := storeString fun s r => { r with Txid := s } },
    { name := str "date", store := storeAny fun d r => { r with Date := d } },
    { name := str "surplusAmount",
      store := storeString fun s r => { r with SurplusAmount := s } },
    { name := str "surplusStatus",
      store := storeString fun s r => { r with SurplusStatus := s } },
    { name := str "confirmations", store := storeInt fun n r => { r with Confirmations := n } },
    { name := str "payableAmount",
      store := storeString fun s r => { r with PayableAmount := s } },
    { name := str "failureCode", store := storeString fun s r => { r with FailureCode := s } },
    { name := str "failureReason",
      store := storeString fun s r => { r with FailureReason := s } },
    { name := str "returnTo", store := storeString fun s r => { r with ReturnTo := s } },
    { name := str "traceId", store := storeString fun s r => { r with TraceID := s } } ]

/-- The query `value` that `GetPaymentResult` builds from its request. -/
def getPaymentResultValues (req : GetPaymentResultRequest) : Values :=
  let value : Values := []
  let value := Values.SetIf value (req.TraceId ≠ []) (str "traceId") req.TraceId
  let value := Values.SetIf value (req.OrderId ≠ []) (str "orderId") req.OrderId
  let value := Values.SetIf value (req.PayeeId ≠ []) (str "payeeId") req.PayeeId
  value

/-- Go `Client.GetPaymentResult`, with the HTTP client's behaviour `Do`.  The
decoding `store` of the result struct is that of `encoding/json` for
`GetPaymentResultResponse`; it is a parameter because the field `Date any`
involves `float64`. -/
def GetPaymentResult (Do : Transport) (store : Store GetPaymentResultResponse) (c : Client)
    (req : GetPaymentResultRequest) : Call GetPaymentResultResponse :=
  let r : Request :=
    { Method := str "GET",
      URL := c.host ++ str "/v1/payments_result" ++ str "?"
        ++ Values.Encode (getPaymentResultValues req),
      Body := [], ContentType := [] }
  match Do r with
  | Except.error e => { sent := r, result := none, err := some (GoError.transport e) }
  | Except.ok resp =>
    let out := parseResponse resp (some store) GetPaymentResultResponse.zero
    match out.err with
    | some e => { sent := r, result := none, err := some e }
    | none =>
      let raw := (ReadAll out.r.Body).1
      { sent := r, result := some { out.v with Raw := raw }, err := none }

/-! ### shopspring/decimal -/

/-- A `decimal.Decimal`: the number `value * 10 ^ exp`. -/
structure Decimal where
  value : Int
  exp : Int
  deriving DecidableEq, Repr

/-- Go `Decimal.IsPositive`: the sign is 1. -/
def Decimal.IsPositive (d : Decimal) : Bool :=
  decide (0 < d.value)

/-- Drops the trailing zeros of a digit string. -/
def trimZeros (s : Bytes) : Bytes :=
  (s.reverse.dropWhile fun c => c == 48).reverse

/-- Go `Decimal.String`: the plain decimal rendering, without trailing zeros in
the fraction. -/
def Decimal.String (d : Decimal) : Bytes :=
  if 0 ≤ d.exp then FormatInt (d.value * 10 ^ d.exp.toNat)
  else
    let digits := natDigits d.value.natAbs
    let n := (-d.exp).toNat
    let intPart := if n < digits.length then digits.take (digits.length - n) else [48]
    let frac := if n < digits.length then digits.drop (digits.length - n)
      else List.replicate (n - digits.length) 48 ++ digits
    let frac := trimZeros frac
    let number := if frac = [] then intPart else intPart ++ 46 :: frac
    if d.value < 0 then 45 :: number else number

/-- The `ChainAsset` struct. -/
structure ChainAsset where
  Id : Bytes
  Name : Bytes
  Symbol : Bytes
  IconUrl : Bytes
  deriving DecidableEq, Repr

/-- The `Asset` struct. -/
structure Asset where
  Name : Bytes
  Symbol : Bytes
  IconUrl : Bytes
  AssetId : Bytes
  IsAsset : Bool
  Network : Bytes
  IsAvailable : Bool
  QuoteSymbol : Bytes
  MinQuoteAmount : Decimal
  MaxQuoteAmount : Decimal
  ChainAsset : ChainAsset
  deriving DecidableEq, Repr

/-- The `ListSettlementAssetsRequest` struct. -/
structure ListSettlementAssetsRequest where
  PayeeID : Bytes
  QuoteAssetID : Bytes
  QuoteAmount : Decimal
  deriving DecidableEq, Repr

/-- The query `value` that `ListSettlementAssets` builds from its request, a
pointer that may be nil. -/
def listSettlementAssetsValues (req : Option ListSettlementAssetsRequest) : Values :=
  let value : Values := []
  match req with
  | some req =>
    let value := Values.SetIf value (req.PayeeID ≠ []) (str "payeeId") req.PayeeID
    if req.QuoteAssetID ≠ [] ∧ req.QuoteAmount.IsPositive = true then
      let value := Values.Set value (str "quoteAssetId") req.QuoteAssetID
      Values.Set value (str "quoteAmount") req.QuoteAmount.String
    else value
  | none => value

/-- Go `Client.ListSettlementAssets`, with the HTTP client's behaviour `Do`.
The result `[]*Asset` is a list of pointers that may be nil; its decoding
`store` is a parameter because `decimal.Decimal` brings its own `UnmarshalJSON`. -/
def ListSettlementAssets (Do : Transport) (store : Store (List (Option Asset))) (c : Client)
    (req : Option ListSettlementAssetsRequest) : Call (List (Option Asset)) :=
  let r : Request :=
    { Method := str "GET",
      URL := c.host ++ str "/v1/setting/settlement_assets" ++ str "?"
        ++ Values.Encode (listSettlementAssetsValues req),
      Body := [], ContentType := [] }
  match Do r with
  | Except.error e => { sent := r, result := none, err := some (GoError.transport e) }
  | Except.ok resp =>
    let out := parseResponse resp (some store) []
    match out.err with
    | some e => { sent := r, result := none, err := some e }
    | none => { sent := r, result := some out.v, err := none }

/-! ## Notions used in the statements -/

/-- The envelope a response body parses as: what `json.Unmarshal` makes of the
body on the zero value of `resp`, and its error. -/
def decodeEnvelope (body : Bytes) : Envelope × Option JsonError :=
  Unmarshal (storeStruct envelopeFields) body Envelope.zero

/-- The same error with the HTTP status code of a structured error replaced. -/
def GoError.withStatusCode (s : Int) : GoError → GoError
  | GoError.api e => GoError.api { e with StatusCode := s }
  | e => e

/-- The form body of the request that `CreateOneTimePayment` sends, decoded as
the receiving side does with Go's `url.ParseQuery`. -/
def createOneTimePaymentForm (Do : Transport) (c : Client) (req : CreateOneTimePaymentRequest) :
    Values × Option QueryError :=
  ParseQuery (CreateOneTimePayment Do c req).sent.Body

/-- The query string of the request that `GetPaymentResult` sends (what follows
the `?` of its URL). -/
def getPaymentResultQuery (req : GetPaymentResultRequest) : Bytes :=
  Values.Encode (getPaymentResultValues req)

/-- The query string of the request that `ListSettlementAssets` sends (what
follows the `?` of its URL). -/
def listSettlementAssetsQuery (req : Option ListSettlementAssetsRequest) : Bytes :=
  Values.Encode (listSettlementAssetsValues req)

/-- A byte that stands for itself inside a JSON string: printable ASCII other
than the quote and the backslash. -/
def isPlain (c : Byte) : Bool :=
  decide (32 ≤ c) && decide (c < 128) && c != 34 && c != 92

/-- The envelope text of a successful create-payment response with the given
code and code URL. -/
def paymentEnvelope (c u : Bytes) : Bytes :=
  str "\x7b\"success\":true,\"data\":\x7b\"code\":\"" ++ c ++ str "\",\"codeUrl\":\"" ++ u
    ++ str "\"\x7d\x7d"

/-- The envelope text of a failure response with the given code and message. -/
def failureEnvelope (n : Int) (m : Bytes) : Bytes :=
  str "\x7b\"success\":false,\"code\":" ++ FormatInt n ++ str ",\"message\":\"" ++ m
    ++ str "\"\x7d"

/-- A well-formed map: one entry per key, and no key with an empty slice. -/
def Values.WF (v : Values) : Prop :=
  v.keys.Nodup ∧ ∀ p ∈ v, p.2 ≠ []

/-- The values written under a key in a list of pairs, in order. -/
def valsOf (ps : List (Bytes × Bytes)) (k : Bytes) : List Bytes :=
  (ps.filter fun p => p.1 = k).map Prod.snd

/-- One `key=value` pair as `Encode` writes it. -/
def pairBytes (p : Bytes × Bytes) : Bytes :=
  QueryEscape p.1 ++ 61 :: QueryEscape p.2

/-- The escaped form of a byte is not empty and holds none of `&`, `=`, `;`. -/
def escapeByteOk (c : Byte) : Bool :=
  (escapeByte c).all (fun x => x != 38 && x != 61 && x != 59) && (escapeByte c != [])

/-- The number a digit string denotes, as `ParseInt` accumulates it. -/
def digitsVal (l : Bytes) : Nat :=
  l.foldl (fun a c => a * 10 + (c.val - 48)) 0

/-! ## Sample inputs -/

/-- A failure envelope, as the service sends it with status 400. -/
def failureBody : Bytes :=
  str "\x7b\"success\":false,\"code\":42,\"message\":\"bad request\"\x7d"

/-- An HTML error page. -/
def htmlBody : Bytes :=
  str "<html>Internal error</html>"

/-- An envelope that says success but has a string where `code` must be a number. -/
def mistypedBody : Bytes :=
  str "\x7b\"success\":true,\"code\":\"7\",\"data\":\x7b\x7d\x7d"

/-- A success envelope of the create-payment endpoint. -/
def paymentBody : Bytes :=
  str "\x7b\"success\":true,\"data\":\x7b\"code\":\"abc\",\"codeUrl\":\"https://x\"\x7d\x7d"

/-- A success envelope without a `data` member. -/
def noDataBody : Bytes :=
  str "\x7b\"success\":true\x7d"

/-- A success envelope whose `data` is a number. -/
def numberDataBody : Bytes :=
  str "\x7b\"success\":true,\"data\":5\x7d"

/-- A success envelope of the payment-result endpoint. -/
def paymentResultBody : Bytes :=
  str "\x7b\"success\":true,\"code\":0,\"data\":\x7b\"status\":\"success\",\"confirmations\":3\x7d\x7d"

/-- An HTTP client without a network: every request fails. -/
def offline : Transport :=
  fun _ => Except.error { msg := str "connection refused" }

/-- An HTTP client whose server answers every request with status 200 and the
given body. -/
def answering (body : Bytes) : Transport :=
  fun _ => Except.ok { StatusCode := 200, Body := NewReader body }

/-- A payment request with only the required fields. -/
def requiredOnlyRequest : CreateOneTimePaymentRequest :=
  { PayeeId := str "payee 1", QuoteAmount := str "1.5", QuoteAssetId := str "usd",
    SettlementAssetId := str "btc", OrderId := str "order-1", StrictMode := false,
    PaymentAssetId := [], Remark := [], ExpireSeconds := 0, TraceId := [], SettlementMemo := [],
    ReturnTo := [], FailedReturnTo := [], CallbackUrl := [], ExpiredTimestamp := 0 }

/-- A payment request with every optional field set. -/
def fullRequest : CreateOneTimePaymentRequest :=
  { PayeeId := str "payee 1", QuoteAmount := str "1.5", QuoteAssetId := str "usd",
    SettlementAssetId := str "btc", OrderId := str "order-1", StrictMode := true,
    PaymentAssetId := str "eth", Remark := str "a&b=c d", ExpireSeconds := -5,
    TraceId := str "t-1", SettlementMemo := str "memo", ReturnTo := str "https://a/ok?x=1",
    FailedReturnTo := str "https://a/no", CallbackUrl := str "https://a/cb",
    ExpiredTimestamp := 1700000000 }

/-- A settlement-asset filter with a quote asset and a quote amount of zero. -/
def zeroAmountFilter : ListSettlementAssetsRequest :=
  { PayeeID := str "payee 1", QuoteAssetID := str "usd", QuoteAmount := { value := 0, exp := 0 } }

/-- A settlement-asset filter with a quote asset and the quote amount 12.50. -/
def positiveAmountFilter : ListSettlementAssetsRequest :=
  { PayeeID := [], QuoteAssetID := str "usd", QuoteAmount := { value := 1250, exp := -2 } }

/-! ## Lemmas -/

theorem find_Set (v : Values) (k x k2 : Bytes) :
    Values.find (Values.Set v k x) k2 = if k = k2 then some [x] else Values.find v k2 := by
  induction v with
  | nil => simp [Values.Set, Values.find]
  | cons p rest ih =>
    obtain ⟨k1, vs⟩ := p
    by_cases h1 : k1 = k
    · subst h1
      by_cases h2 : k1 = k2 <;> simp [Values.Set, Values.find, h2]
    · by_cases h2 : k1 = k2
      · subst h2
        have h3 : ¬ k = k1 := fun h => h1 h.symm
        simp [Values.Set, Values.find, h1, h3]
      · simp [Values.Set, Values.find, h1, h2, ih]

theorem find_Add (v : Values) (k x k2 : Bytes) :
    Values.find (Values.Add v k x) k2
      = if k = k2 then some (Values.vals v k ++ [x]) else Values.find v k2 := by
  induction v with
  | nil => simp [Values.Add, Values.find, Values.vals]
  | cons p rest ih =>
    obtain ⟨k1, vs⟩ := p
    by_cases h1 : k1 = k
    · subst h1
      by_cases h2 : k1 = k2 <;> simp [Values.Add, Values.find, Values.vals, h2]
    · by_cases h2 : k1 = k2
      · subst h2
        have h3 : ¬ k = k1 := fun h => h1 h.symm
        simp [Values.Add, Values.find, h1, h3]
      · simp [Values.Add, Values.find, Values.vals, h1, h2, ih]

theorem keys_Set (v : Values) (k x : Bytes) :
    Values.keys (Values.Set v k x) = if k ∈ Values.keys v then Values.keys v else Values.keys v ++ [k] := by
  induction v with
  | nil => simp [Values.Set, Values.keys]
  | cons p rest ih =>
    obtain ⟨k1, vs⟩ := p
    by_cases h1 : k1 = k
    · subst h1
      simp [Values.Set, Values.keys]
    · have h3 : ¬ k = k1 := fun h => h1 h.symm
      simp only [Values.keys] at ih
      by_cases h4 : k ∈ List.map Prod.fst rest
      · simp [Values.Set, Values.keys, h1, h3, ih, h4]
      · simp [Values.Set, Values.keys, h1, h3, ih, h4]

theorem escapeByteOk_all : ∀ c : Byte, escapeByteOk c = true := by decide!

theorem unescape_escapeByte_all : ∀ c : Byte, QueryUnescape (escapeByte c) = some [c] := by decide!

theorem QueryUnescape_cons (c : Byte) (rest : Bytes) :
    QueryUnescape (c :: rest) =
      if c = 37 then
        match rest with
        | h :: l :: rest2 =>
          if ishex h && ishex l then
            (QueryUnescape rest2).map fun t => Fin.ofNat (unhex h * 16 + unhex l) :: t
          else none
        | _ => none
      else if c = 43 then (QueryUnescape rest).map fun t => 32 :: t
      else (QueryUnescape rest).map fun t => c :: t := by
  rcases rest with _ | ⟨h, _ | ⟨l, rest2⟩⟩ <;> simp [QueryUnescape]

theorem escapeByte_cases (c : Byte) :
    (c = 32 ∧ escapeByte c = [43]) ∨ (c ≠ 37 ∧ c ≠ 43 ∧ escapeByte c = [c])
    ∨ (escapeByte c = [37, upperhex (c.val / 16), upperhex (c.val % 16)]) := by
  unfold escapeByte
  by_cases h1 : c = 32
  · simp [h1]
  · by_cases h2 : shouldEscape c = true
    · simp [h1, h2]
    · right; left
      simp only [h1, h2, if_false]
      refine ⟨?_, ?_, by simp⟩
      · rintro rfl; exact h2 (by decide)
      · rintro rfl; exact h2 (by decide)

theorem unescape_escapeByte_append (c : Byte) (t : Bytes) :
    QueryUnescape (escapeByte c ++ t) = (QueryUnescape t).map fun r => c :: r := by
  rcases escapeByte_cases c with ⟨h1, h2⟩ | ⟨h1, h2, h3⟩ | h
  · subst h1
    rw [h2]
    simp [QueryUnescape_cons]
  · rw [h3]
    simp [QueryUnescape_cons, h1, h2]
  · have h0 := unescape_escapeByte_all c
    rw [h] at h0 ⊢
    simp only [QueryUnescape_cons, List.cons_append, List.nil_append, if_true] at h0 ⊢
    split at h0
    · cases ht : QueryUnescape t <;> simp_all [QueryUnescape]
    · simp at h0

theorem unescape_escape (s : Bytes) : QueryUnescape (QueryEscape s) = some s := by
  induction s with
  | nil => rfl
  | cons c rest ih =>
    have : QueryEscape (c :: rest) = escapeByte c ++ QueryEscape rest := by
      simp [QueryEscape]
    rw [this, unescape_escapeByte_append, ih]
    rfl

theorem escape_clean (s : Bytes) : ∀ x ∈ QueryEscape s, x ≠ 38 ∧ x ≠ 61 ∧ x ≠ 59 := by
  intro x hx
  simp only [QueryEscape, List.mem_flatMap] at hx
  obtain ⟨c, _, hc⟩ := hx
  have h := escapeByteOk_all c
  simp only [escapeByteOk, Bool.and_eq_true, List.all_eq_true] at h
  have := h.1 x hc
  simpa [and_assoc] using this

theorem segments_append_amp (p rest : Bytes) (hp : (38 : Byte) ∉ p) :
    segments (p ++ 38 :: rest) = p :: segments rest := by
  induction p with
  | nil => simp [segments]
  | cons c p ih =>
    have hc : c ≠ 38 := fun h => hp (by simp [h])
    have hp2 : (38 : Byte) ∉ p := fun h => hp (by simp [h])
    simp [segments, hc, ih hp2]

theorem segments_single (p : Bytes) (hp : (38 : Byte) ∉ p) (hne : p ≠ []) :
    segments p = [p] := by
  induction p with
  | nil => exact absurd rfl hne
  | cons c p ih =>
    have hc : c ≠ 38 := fun h => hp (by simp [h])
    have hp2 : (38 : Byte) ∉ p := fun h => hp (by simp [h])
    by_cases h : p = []
    · subst h; simp [segments, hc]
    · simp [segments, hc, ih hp2 h]

theorem segments_joinAmp (ps : List Bytes) (h : ∀ p ∈ ps, (38 : Byte) ∉ p ∧ p ≠ []) :
    segments (joinAmp ps) = ps := by
  induction ps with
  | nil => rfl
  | cons p rest ih =>
    cases rest with
    | nil =>
      have := h p (by simp)
      simpa [joinAmp] using segments_single p this.1 this.2
    | cons q rest =>
      have hp := h p (by simp)
      have hrest : ∀ x ∈ q :: rest, (38 : Byte) ∉ x ∧ x ≠ [] :=
        fun x hx => h x (List.mem_cons_of_mem _ hx)
      simp only [joinAmp]
      rw [segments_append_amp p _ hp.1, ih hrest]

theorem cutEq_append (a b : Bytes) (ha : (61 : Byte) ∉ a) : cutEq (a ++ 61 :: b) = (a, b) := by
  induction a with
  | nil => simp [cutEq]
  | cons c a ih =>
    have hc : c ≠ 61 := fun h => ha (by simp [h])
    have ha2 : (61 : Byte) ∉ a := fun h => ha (by simp [h])
    simp [cutEq, hc, ih ha2]

theorem pairBytes_clean (p : Bytes × Bytes) :
    (38 : Byte) ∉ pairBytes p ∧ (59 : Byte) ∉ pairBytes p ∧ pairBytes p ≠ [] := by
  refine ⟨?_, ?_, by simp [pairBytes]⟩
  · intro h
    simp only [pairBytes, List.mem_append, List.mem_cons] at h
    rcases h with h | h | h
    · exact (escape_clean _ _ h).1 rfl
    · exact absurd h (by decide)
    · exact (escape_clean _ _ h).1 rfl
  · intro h
    simp only [pairBytes, List.mem_append, List.mem_cons] at h
    rcases h with h | h | h
    · exact (escape_clean _ _ h).2.2 rfl
    · exact absurd h (by decide)
    · exact (escape_clean _ _ h).2.2 rfl

theorem parseSegment_pair (st : Values × Option QueryError) (p : Bytes × Bytes) :
    parseSegment st (pairBytes p) = (Values.Add st.1 p.1 p.2, st.2) := by
  have hc := pairBytes_clean p
  have hcut : cutEq (pairBytes p) = (QueryEscape p.1, QueryEscape p.2) :=
    cutEq_append _ _ (fun h => (escape_clean _ _ h).2.1 rfl)
  simp [parseSegment, hc.2.1, hc.2.2, hcut, unescape_escape]

theorem foldl_parseSegment (ps : List (Bytes × Bytes)) (st : Values × Option QueryError) :
    (ps.map pairBytes).foldl parseSegment st
      = (ps.foldl (fun m p => Values.Add m p.1 p.2) st.1, st.2) := by
  induction ps generalizing st with
  | nil => rfl
  | cons p rest ih =>
    simp only [List.map_cons, List.foldl_cons, parseSegment_pair, ih]

theorem ParseQuery_Encode (v : Values) :
    ParseQuery (Values.Encode v)
      = (v.sortedPairs.foldl (fun m p => Values.Add m p.1 p.2) [], none) := by
  have h : Values.Encode v = joinAmp (v.sortedPairs.map pairBytes) := rfl
  rw [h, ParseQuery, segments_joinAmp, foldl_parseSegment]
  intro p hp
  obtain ⟨q, _, rfl⟩ := List.mem_map.mp hp
  exact ⟨(pairBytes_clean q).1, (pairBytes_clean q).2.2⟩

theorem find_foldl_Add (ps : List (Bytes × Bytes)) (m : Values) (k : Bytes) :
    Values.find (ps.foldl (fun m p => Values.Add m p.1 p.2) m) k
      = if valsOf ps k = [] then Values.find m k else some (Values.vals m k ++ valsOf ps k) := by
  induction ps generalizing m with
  | nil => simp [valsOf]
  | cons p rest ih =>
    simp only [List.foldl_cons, ih, find_Add, Values.vals]
    by_cases h : p.1 = k
    · by_cases h2 : valsOf rest k = []
      · simp [valsOf, h] at h2 ⊢
      · have h3 : valsOf (p :: rest) k = p.2 :: valsOf rest k := by simp [valsOf, h]
        simp [h2, h3, h]
    · have h3 : valsOf (p :: rest) k = valsOf rest k := by simp [valsOf, h]
      simp [h3, h]

theorem valsOf_flatMap (L : List Bytes) (f : Bytes → List Bytes) (k : Bytes) (hL : L.Nodup) :
    valsOf (L.flatMap fun k2 => (f k2).map fun x => (k2, x)) k = if k ∈ L then f k else [] := by
  induction L with
  | nil => simp [valsOf]
  | cons a L ih =>
    have hL2 := (List.nodup_cons.mp hL)
    have ih2 := ih hL2.2
    simp only [valsOf] at ih2 ⊢
    simp only [List.flatMap_cons, List.filter_append, List.map_append, ih2]
    by_cases h : a = k
    · subst h
      simp [hL2.1, List.filter_map, Function.comp_def]
    · have h2 : ¬ k = a := fun e => h e.symm
      simp [h, h2, List.filter_map, Function.comp_def]

theorem find_eq_none_of_not_mem (v : Values) (k : Bytes) (h : k ∉ v.keys) :
    Values.find v k = none := by
  induction v with
  | nil => rfl
  | cons p rest ih =>
    obtain ⟨k1, vs⟩ := p
    simp only [Values.keys, List.map_cons, List.mem_cons, not_or] at h
    have h1 : ¬ k1 = k := fun e => h.1 e.symm
    simp only [Values.find, h1, if_false]
    exact ih h.2

theorem find_mem (v : Values) (k : Bytes) (vs : List Bytes) (h : Values.find v k = some vs) :
    (k, vs) ∈ v := by
  induction v with
  | nil => simp [Values.find] at h
  | cons p rest ih =>
    obtain ⟨k1, vs1⟩ := p
    by_cases h1 : k1 = k
    · simp [Values.find, h1] at h
      simp [h1, h]
    · simp [Values.find, h1] at h
      exact List.mem_cons_of_mem _ (ih h)

theorem valsOf_sortedPairs (v : Values) (hv : v.WF) (k : Bytes) :
    valsOf v.sortedPairs k = Values.vals v k := by
  have hperm := List.perm_insertionSort (fun a b => bytesLe a b = true) v.keys
  rw [Values.sortedPairs, valsOf_flatMap _ _ _ (hperm.nodup_iff.mpr hv.1)]
  by_cases h : k ∈ v.keys
  · simp [hperm.mem_iff, h]
  · simp [hperm.mem_iff, h, Values.vals, find_eq_none_of_not_mem v k h]

theorem find_ParseQuery_Encode (v : Values) (hv : v.WF) (k : Bytes) :
    Values.find (ParseQuery (Values.Encode v)).1 k = Values.find v k := by
  rw [ParseQuery_Encode, find_foldl_Add, valsOf_sortedPairs v hv]
  cases h : Values.find v k with
  | none => simp [Values.vals, h, Values.find]
  | some vs =>
    have hne : vs ≠ [] := hv.2 _ (find_mem v k vs h)
    simp [Values.vals, h, hne, Values.find]

theorem WF_nil : Values.WF [] := by
  simp [Values.WF, Values.keys]

theorem WF_Set (v : Values) (k x : Bytes) (hv : v.WF) : (Values.Set v k x).WF := by
  refine ⟨?_, ?_⟩
  · rw [keys_Set]
    split
    · exact hv.1
    · rename_i h
      exact List.Nodup.append hv.1 (List.nodup_singleton k) (by simpa using h)
  · have hv2 := hv.2
    clear hv
    induction v with
    | nil => simp [Values.Set]
    | cons p rest ih =>
      obtain ⟨k1, vs⟩ := p
      intro q hq
      by_cases h1 : k1 = k
      · simp only [Values.Set, h1, if_true, List.mem_cons] at hq
        rcases hq with rfl | hq
        · simp
        · exact hv2 q (List.mem_cons_of_mem _ hq)
      · simp only [Values.Set, h1, if_false, List.mem_cons] at hq
        rcases hq with rfl | hq
        · exact hv2 _ (List.mem_cons_self _ _)
        · exact ih (fun p hp => hv2 p (List.mem_cons_of_mem _ hp)) q hq

theorem WF_ite (c : Prop) [Decidable c] (a b : Values) (ha : a.WF) (hb : b.WF) :
    (if c then a else b).WF := by
  split <;> assumption

theorem find_ite (c : Prop) [Decidable c] (a b : Values) (k : Bytes) :
    Values.find (if c then a else b) k = if c then Values.find a k else Values.find b k := by
  split <;> rfl

theorem str_payeeId : str "payeeId" = [112, 97, 121, 101, 101, 73, 100] := by decide

theorem str_quoteAmount : str "quoteAmount" = [113, 117, 111, 116, 101, 65, 109, 111, 117, 110, 116] := by decide

theorem str_quoteAssetId : str "quoteAssetId" = [113, 117, 111, 116, 101, 65, 115, 115, 101, 116, 73, 100] := by decide

theorem str_settlementAssetId : str "settlementAssetId" = [115, 101, 116, 116, 108, 101, 109, 101, 110, 116, 65, 115, 115, 101, 116, 73, 100] := by decide

theorem str_orderId : str "orderId" = [111, 114, 100, 101, 114, 73, 100] := by decide

theorem str_strictMode : str "strictMode" = [115, 116, 114, 105, 99, 116, 77, 111, 100, 101] := by decide

theorem str_paymentAssetId : str "paymentAssetId" = [112, 97, 121, 109, 101, 110, 116, 65, 115, 115, 101, 116, 73, 100] := by decide

theorem str_remark : str "remark" = [114, 101, 109, 97, 114, 107] := by decide

theorem str_expireSeconds : str "expireSeconds" = [101, 120, 112, 105, 114, 101, 83, 101, 99, 111, 110, 100, 115] := by decide

theorem str_traceId : str "traceId" = [116, 114, 97, 99, 101, 73, 100] := by decide

theorem str_settlementMemo : str "settlementMemo" = [115, 101, 116, 116, 108, 101, 109, 101, 110, 116, 77, 101, 109, 111] := by decide

theorem str_returnTo : str "returnTo" = [114, 101, 116, 117, 114, 110, 84, 111] := by decide

theorem str_failedReturnTo : str "failedReturnTo" = [102, 97, 105, 108, 101, 100, 82, 101, 116, 117, 114, 110, 84, 111] := by decide

theorem str_callbackUrl : str "callbackUrl" = [99, 97, 108, 108, 98, 97, 99, 107, 85, 114, 108] := by decide

theorem str_expiredTimestamp : str "expiredTimestamp" = [101, 120, 112, 105, 114, 101, 100, 84, 105, 109, 101, 115, 116, 97, 109, 112] := by decide

theorem str_true : str "true" = [116, 114, 117, 101] := by decide

theorem WF_SetIf (v : Values) (c : Prop) [Decidable c] (k x : Bytes) (hv : v.WF) :
    (Values.SetIf v c k x).WF := by
  unfold Values.SetIf
  split
  · exact WF_Set v k x hv
  · exact hv

theorem find_SetIf (v : Values) (c : Prop) [Decidable c] (k x k2 : Bytes) :
    Values.find (Values.SetIf v c k x) k2
      = if k = k2 ∧ c then some [x] else Values.find v k2 := by
  unfold Values.SetIf
  by_cases hc : c <;> simp [hc, find_Set]

theorem WF_createOneTimePaymentValues (req : CreateOneTimePaymentRequest) :
    (createOneTimePaymentValues req).WF := by
  dsimp only [createOneTimePaymentValues]
  repeat (first | refine WF_SetIf _ _ _ _ ?_ | refine WF_Set _ _ _ ?_ | exact WF_nil)

theorem CreateOneTimePayment_sent (Do : Transport) (c : Client) (req : CreateOneTimePaymentRequest) :
    (CreateOneTimePayment Do c req).sent =
      { Method := str "POST", URL := c.host ++ str "/v1/one_time_payment",
        Body := Values.Encode (createOneTimePaymentValues req),
        ContentType := str "application/x-www-form-urlencoded" } := by
  unfold CreateOneTimePayment
  dsimp only
  split
  · rfl
  · split <;> rfl

theorem find_createOneTimePaymentValues (req : CreateOneTimePaymentRequest) (k : Bytes) :
    Values.find (createOneTimePaymentValues req) k =
      if str "expiredTimestamp" = k ∧ req.ExpiredTimestamp ≠ 0 then some [FormatInt req.ExpiredTimestamp]
      else if str "callbackUrl" = k ∧ req.CallbackUrl ≠ [] then some [req.CallbackUrl]
      else if str "failedReturnTo" = k ∧ req.FailedReturnTo ≠ [] then some [req.FailedReturnTo]
      else if str "returnTo" = k ∧ req.ReturnTo ≠ [] then some [req.ReturnTo]
      else if str "settlementMemo" = k ∧ req.SettlementMemo ≠ [] then some [req.SettlementMemo]
      else if str "traceId" = k ∧ req.TraceId ≠ [] then some [req.TraceId]
      else if str "expireSeconds" = k ∧ req.ExpireSeconds ≠ 0 then some [FormatInt req.ExpireSeconds]
      else if str "remark" = k ∧ req.Remark ≠ [] then some [req.Remark]
      else if str "paymentAssetId" = k ∧ req.PaymentAssetId ≠ [] then some [req.PaymentAssetId]
      else if str "strictMode" = k ∧ req.StrictMode = true then some [str "true"]
      else if str "payeeId" = k then some [req.PayeeId]
      else if str "quoteAmount" = k then some [req.QuoteAmount]
      else if str "quoteAssetId" = k then some [req.QuoteAssetId]
      else if str "settlementAssetId" = k then some [req.SettlementAssetId]
      else if str "orderId" = k then some [req.OrderId]
      else none := by
  dsimp only [createOneTimePaymentValues]
  simp only [find_SetIf, find_Set, Values.find]

theorem find_createOneTimePaymentForm (Do : Transport) (c : Client)
    (req : CreateOneTimePaymentRequest) (k : Bytes) :
    Values.find (createOneTimePaymentForm Do c req).1 k
      = Values.find (createOneTimePaymentValues req) k := by
  rw [createOneTimePaymentForm, CreateOneTimePayment_sent]
  exact find_ParseQuery_Encode _ (WF_createOneTimePaymentValues req) k

theorem createOneTimePaymentForm_err (Do : Transport) (c : Client)
    (req : CreateOneTimePaymentRequest) : (createOneTimePaymentForm Do c req).2 = none := by
  rw [createOneTimePaymentForm, CreateOneTimePayment_sent]
  simp only [ParseQuery_Encode]

theorem sorted_required_keys :
    List.insertionSort (fun a b => bytesLe a b = true)
      [str "payeeId", str "quoteAmount", str "quoteAssetId", str "settlementAssetId", str "orderId"]
    = [str "orderId", str "payeeId", str "quoteAmount", str "quoteAssetId",
        str "settlementAssetId"] := by
  decide

theorem escape_required_keys :
    QueryEscape (str "orderId") ++ [61] = str "orderId="
    ∧ 38 :: QueryEscape (str "payeeId") ++ [61] = str "&payeeId="
    ∧ 38 :: QueryEscape (str "quoteAmount") ++ [61] = str "&quoteAmount="
    ∧ 38 :: QueryEscape (str "quoteAssetId") ++ [61] = str "&quoteAssetId="
    ∧ 38 :: QueryEscape (str "settlementAssetId") ++ [61] = str "&settlementAssetId=" := by
  decide

theorem required_only_body (req : CreateOneTimePaymentRequest)
    (h1 : req.StrictMode = false) (h2 : req.PaymentAssetId = []) (h3 : req.Remark = [])
    (h4 : req.ExpireSeconds = 0) (h5 : req.TraceId = []) (h6 : req.SettlementMemo = [])
    (h7 : req.ReturnTo = []) (h8 : req.FailedReturnTo = []) (h9 : req.CallbackUrl = [])
    (h10 : req.ExpiredTimestamp = 0) :
    Values.Encode (createOneTimePaymentValues req)
      = str "orderId=" ++ QueryEscape req.OrderId
        ++ str "&payeeId=" ++ QueryEscape req.PayeeId
        ++ str "&quoteAmount=" ++ QueryEscape req.QuoteAmount
        ++ str "&quoteAssetId=" ++ QueryEscape req.QuoteAssetId
        ++ str "&settlementAssetId=" ++ QueryEscape req.SettlementAssetId := by
  have hv : createOneTimePaymentValues req
      = [(str "payeeId", [req.PayeeId]), (str "quoteAmount", [req.QuoteAmount]),
         (str "quoteAssetId", [req.QuoteAssetId]),
         (str "settlementAssetId", [req.SettlementAssetId]), (str "orderId", [req.OrderId])] := by
    simp [createOneTimePaymentValues, Values.SetIf, Values.Set, h1, h2, h3, h4, h5, h6, h7, h8,
      h9, h10, str_payeeId, str_quoteAmount, str_quoteAssetId, str_settlementAssetId, str_orderId]
  have hk : Values.keys (createOneTimePaymentValues req)
      = [str "payeeId", str "quoteAmount", str "quoteAssetId", str "settlementAssetId",
          str "orderId"] := by
    rw [hv]; rfl
  obtain ⟨e1, e2, e3, e4, e5⟩ := escape_required_keys
  rw [Values.Encode, Values.sortedPairs, hk, sorted_required_keys, ← e1, ← e2, ← e3, ← e4, ← e5]
  simp [Values.vals, find_createOneTimePaymentValues, h1, h2, h3, h4, h5, h6, h7, h8, h9, h10,
    joinAmp, str_payeeId, str_quoteAmount, str_quoteAssetId, str_settlementAssetId, str_orderId,
    str_strictMode, str_paymentAssetId, str_remark, str_expireSeconds, str_traceId,
    str_settlementMemo, str_returnTo, str_failedReturnTo, str_callbackUrl, str_expiredTimestamp]

theorem digitChar_byte : ∀ m : Fin 10,
    ((Fin.ofNat (Nat.digitChar m.val).toNat : Byte) = Fin.ofNat (48 + m.val)) = true := by
  decide

theorem digitChar_byte_lt (m : Nat) (h : m < 10) :
    (Fin.ofNat (Nat.digitChar m).toNat : Byte) = Fin.ofNat (48 + m) := by
  simpa using digitChar_byte ⟨m, h⟩

theorem toDigitsCore_append (fuel n : Nat) (ds : List Char) :
    Nat.toDigitsCore 10 fuel n ds = Nat.toDigitsCore 10 fuel n [] ++ ds := by
  induction fuel generalizing n ds with
  | zero => simp [Nat.toDigitsCore]
  | succ fuel ih =>
    simp only [Nat.toDigitsCore]
    split
    · simp
    · rw [ih (n / 10) (_ :: ds), ih (n / 10) [_]]
      simp

theorem digitsVal_append_single (l : Bytes) (c : Byte) :
    digitsVal (l ++ [c]) = digitsVal l * 10 + (c.val - 48) := by
  simp [digitsVal, List.foldl_append]

theorem isDigit_ofNat (m : Nat) (h : m < 10) : isDigit (Fin.ofNat (48 + m) : Byte) = true := by
  interval_cases m <;> decide

theorem val_ofNat_digit (m : Nat) (h : m < 10) : ((Fin.ofNat (48 + m) : Byte)).val - 48 = m := by
  interval_cases m <;> decide

theorem toDigitsCore_spec (fuel n : Nat) (h : n < fuel) :
    digitsVal ((Nat.toDigitsCore 10 fuel n []).map fun c => Fin.ofNat c.toNat) = n
    ∧ ((Nat.toDigitsCore 10 fuel n []).map fun c => (Fin.ofNat c.toNat : Byte)).all isDigit = true
    ∧ ∃ d rest, ((Nat.toDigitsCore 10 fuel n []).map fun c => (Fin.ofNat c.toNat : Byte)) = d :: rest
        ∧ isDigit d = true := by
  induction fuel generalizing n with
  | zero => omega
  | succ fuel ih =>
    have hm : n % 10 < 10 := Nat.mod_lt _ (by decide)
    simp only [Nat.toDigitsCore]
    split
    · rename_i h0
      have hn : n % 10 = n := by omega
      simp only [List.map_cons, List.map_nil, digitChar_byte_lt _ hm]
      refine ⟨?_, ?_, ?_⟩
      · have hv := val_ofNat_digit _ hm
        simp only [digitsVal, List.foldl_cons, List.foldl_nil, hv]
        omega
      · simp [isDigit_ofNat _ hm]
      · exact ⟨_, _, rfl, isDigit_ofNat _ hm⟩
    · rename_i h0
      have hlt : n / 10 < fuel := by omega
      obtain ⟨i1, i2, d, rest, i3, i4⟩ := ih (n / 10) hlt
      rw [toDigitsCore_append]
      simp only [List.map_append, List.map_cons, List.map_nil, digitChar_byte_lt _ hm]
      refine ⟨?_, ?_, ?_⟩
      · rw [digitsVal_append_single, i1, val_ofNat_digit _ hm]
        omega
      · simp [i2, isDigit_ofNat _ hm]
      · exact ⟨d, rest ++ [Fin.ofNat (48 + n % 10)], by rw [i3]; rfl, i4⟩

theorem natDigits_spec (n : Nat) :
    digitsVal (natDigits n) = n ∧ (natDigits n).all isDigit = true
    ∧ ∃ d rest, natDigits n = d :: rest ∧ isDigit d = true :=
  toDigitsCore_spec (n + 1) n (Nat.lt_succ_self n)

theorem isDigit_ne (d : Byte) (h : isDigit d = true) : d ≠ 45 ∧ d ≠ 43 := by
  constructor <;> rintro rfl <;> exact absurd h (by decide)

theorem parseInt64_FormatInt (i : Int) (hlo : -(2 : Int) ^ 63 ≤ i) (hhi : i < (2 : Int) ^ 63) :
    parseInt64 (FormatInt i) = some i := by
  unfold FormatInt
  by_cases hneg : i < 0
  · obtain ⟨h1, h2, d, rest, h3, h4⟩ := natDigits_spec i.natAbs
    have hne : natDigits i.natAbs ≠ [] := by rw [h3]; simp
    have hle : ¬ (2 ^ 63 < i.natAbs) := by omega
    simp only [hneg, if_true, parseInt64, List.head?_cons, true_or, List.drop_succ_cons,
      List.drop_zero, hne, h2, decide_True, if_false, false_or, Bool.true_eq_false]
    change (if 2 ^ 63 < digitsVal (natDigits i.natAbs) then none
      else some (-(digitsVal (natDigits i.natAbs) : Int))) = some i
    rw [h1, if_neg hle]
    congr 1
    omega
  · obtain ⟨h1, h2, d, rest, h3, h4⟩ := natDigits_spec i.toNat
    have hd := isDigit_ne d h4
    have hne : natDigits i.toNat ≠ [] := by rw [h3]; simp
    have hle : ¬ (2 ^ 63 ≤ i.toNat) := by omega
    have hb : (if (natDigits i.toNat).head? = some 45 ∨ (natDigits i.toNat).head? = some 43
        then (natDigits i.toNat).drop 1 else natDigits i.toNat) = natDigits i.toNat := by
      rw [h3]; simp [hd.1, hd.2]
    have hng : decide ((natDigits i.toNat).head? = some (45 : Byte)) = false := by
      rw [h3]; simp [hd.1]
    simp only [hneg, if_false, parseInt64, hb, hne, h2, hng, false_or, Bool.true_eq_false,
      Bool.false_eq_true]
    change (if 2 ^ 63 ≤ digitsVal (natDigits i.toNat) then none
      else some ((digitsVal (natDigits i.toNat) : Nat) : Int)) = some i
    rw [h1, if_neg hle]
    congr 1
    omega

theorem WF_getPaymentResultValues (req : GetPaymentResultRequest) :
    (getPaymentResultValues req).WF := by
  dsimp only [getPaymentResultValues]
  repeat (first | refine WF_SetIf _ _ _ _ ?_ | refine WF_Set _ _ _ ?_ | exact WF_nil)

theorem find_getPaymentResultValues (req : GetPaymentResultRequest) (k : Bytes) :
    Values.find (getPaymentResultValues req) k =
      if str "payeeId" = k ∧ req.PayeeId ≠ [] then some [req.PayeeId]
      else if str "orderId" = k ∧ req.OrderId ≠ [] then some [req.OrderId]
      else if str "traceId" = k ∧ req.TraceId ≠ [] then some [req.TraceId]
      else none := by
  dsimp only [getPaymentResultValues]
  simp only [find_SetIf, find_Set, Values.find]

theorem GetPaymentResult_sent (Do : Transport) (store : Store GetPaymentResultResponse)
    (c : Client) (req : GetPaymentResultRequest) :
    (GetPaymentResult Do store c req).sent =
      { Method := str "GET",
        URL := c.host ++ str "/v1/payments_result" ++ str "?" ++ getPaymentResultQuery req,
        Body := [], ContentType := [] } := by
  unfold GetPaymentResult
  dsimp only
  split
  · rfl
  · split <;> rfl

theorem GetPaymentResult_transport_error (Do : Transport) (store : Store GetPaymentResultResponse)
    (c : Client) (req : GetPaymentResultRequest) (e : TransportError)
    (h : Do (GetPaymentResult Do store c req).sent = Except.error e) :
    (GetPaymentResult Do store c req).err = some (GoError.transport e)
    ∧ (GetPaymentResult Do store c req).result = none := by
  rw [GetPaymentResult_sent] at h
  unfold GetPaymentResult
  dsimp only
  simp only [getPaymentResultQuery] at h
  rw [h]
  exact ⟨rfl, rfl⟩

theorem WF_listSettlementAssetsValues (req : Option ListSettlementAssetsRequest) :
    (listSettlementAssetsValues req).WF := by
  cases req with
  | none => exact WF_nil
  | some r =>
    dsimp only [listSettlementAssetsValues]
    split <;>
    repeat (first | refine WF_SetIf _ _ _ _ ?_ | refine WF_Set _ _ _ ?_ | exact WF_nil)

theorem find_listSettlementAssetsValues (r : ListSettlementAssetsRequest) (k : Bytes) :
    Values.find (listSettlementAssetsValues (some r)) k =
      if str "quoteAmount" = k ∧ r.QuoteAssetID ≠ [] ∧ 0 < r.QuoteAmount.value
        then some [r.QuoteAmount.String]
      else if str "quoteAssetId" = k ∧ r.QuoteAssetID ≠ [] ∧ 0 < r.QuoteAmount.value
        then some [r.QuoteAssetID]
      else if str "payeeId" = k ∧ r.PayeeID ≠ [] then some [r.PayeeID]
      else none := by
  dsimp only [listSettlementAssetsValues]
  by_cases hc : r.QuoteAssetID ≠ [] ∧ 0 < r.QuoteAmount.value
  · have hc2 : r.QuoteAssetID ≠ [] ∧ r.QuoteAmount.IsPositive = true := by
      simpa [Decimal.IsPositive] using hc
    rw [if_pos hc2]
    simp only [hc, hc.1, and_self, find_Set, find_SetIf, Values.find, and_true, ne_eq,
      not_false_eq_true]
  · have hc2 : ¬ (r.QuoteAssetID ≠ [] ∧ r.QuoteAmount.IsPositive = true) := by
      simpa [Decimal.IsPositive] using hc
    rw [if_neg hc2]
    simp only [hc, if_false, find_Set, find_SetIf, Values.find, and_false]

theorem ListSettlementAssets_sent (Do : Transport) (store : Store (List (Option Asset)))
    (c : Client) (req : Option ListSettlementAssetsRequest) :
    (ListSettlementAssets Do store c req).sent =
      { Method := str "GET",
        URL := c.host ++ str "/v1/setting/settlement_assets" ++ str "?"
          ++ listSettlementAssetsQuery req,
        Body := [], ContentType := [] } := by
  unfold ListSettlementAssets
  dsimp only
  split
  · rfl
  · split <;> rfl

theorem storeMember_comm {σ : Type} (g : σ → σ) (fields : List (Field σ))
    (hg : ∀ f ∈ fields, ∀ v x, f.store v (g x) = (f.store v x).map g)
    (st : σ × Option JsonError) (m : Bytes × JSON) :
    storeMember fields (g st.1, st.2) m
      = (g (storeMember fields st m).1, (storeMember fields st m).2) := by
  unfold storeMember
  cases hf : findField fields m.1 with
  | none => rfl
  | some f =>
    have hmem : f ∈ fields := by
      unfold findField at hf
      split at hf
      · rename_i f0 h0
        cases hf
        exact List.mem_of_find?_eq_some h0
      · exact List.mem_of_find?_eq_some hf
    simp only [hg f hmem]
    cases f.store m.2 st.1 <;> rfl

theorem foldl_storeMember_comm {σ : Type} (g : σ → σ) (fields : List (Field σ))
    (hg : ∀ f ∈ fields, ∀ v x, f.store v (g x) = (f.store v x).map g)
    (ms : List (Bytes × JSON)) (st : σ × Option JsonError) :
    ms.foldl (storeMember fields) (g st.1, st.2)
      = (g (ms.foldl (storeMember fields) st).1, (ms.foldl (storeMember fields) st).2) := by
  induction ms generalizing st with
  | nil => rfl
  | cons m rest ih =>
    simp only [List.foldl_cons]
    rw [storeMember_comm g fields hg st m]
    exact ih _

theorem storeStruct_comm {σ : Type} (g : σ → σ) (fields : List (Field σ))
    (hg : ∀ f ∈ fields, ∀ v x, f.store v (g x) = (f.store v x).map g) (v : JSON) (x : σ) :
    storeStruct fields v (g x) = (g (storeStruct fields v x).1, (storeStruct fields v x).2) := by
  cases v with
  | obj ms => exact foldl_storeMember_comm g fields hg ms (x, none)
  | _ => rfl

theorem envelopeFields_comm (s : Int) :
    ∀ f ∈ envelopeFields, ∀ (v : JSON) (x : Envelope),
      f.store v { x with StatusCode := s } = (f.store v x).map fun e => { e with StatusCode := s } := by
  intro f hf v x
  simp only [envelopeFields, List.mem_cons, List.mem_singleton, List.not_mem_nil, or_false] at hf
  rcases hf with rfl | rfl | rfl | rfl | rfl
  · cases v <;> simp [storeInt]
    cases parseInt64 _ <;> rfl
  · cases v <;> simp [storeString]
  · cases v <;> simp [storeRaw]
  · cases v <;> simp [storeInt]
    cases parseInt64 _ <;> rfl
  · cases v <;> simp [storeBool]

theorem Unmarshal_envelope_status (s : Int) (b : Bytes) :
    Unmarshal (storeStruct envelopeFields) b { Envelope.zero with StatusCode := s }
      = ({ (decodeEnvelope b).1 with StatusCode := s }, (decodeEnvelope b).2) := by
  unfold decodeEnvelope Unmarshal
  cases parseJSON b with
  | none => rfl
  | some v =>
    exact storeStruct_comm (fun e : Envelope => { e with StatusCode := s }) envelopeFields
      (envelopeFields_comm s) v Envelope.zero

theorem parseResponse_eq {α : Type} (s : Int) (b : Bytes) (v : Option (Store α)) (x : α) :
    parseResponse ⟨s, NewReader b⟩ v x =
      match (decodeEnvelope b).2 with
      | some _ =>
        { r := ⟨s, NewReader b⟩, v := x,
          err := some (GoError.api ⟨s, StatusText s, s, b⟩) }
      | none =>
        if (decodeEnvelope b).1.Success = true then
          match v with
          | some store =>
            { r := ⟨s, NewReader b⟩, v := (UnmarshalRaw store (decodeEnvelope b).1.Data x).1,
              err := (UnmarshalRaw store (decodeEnvelope b).1.Data x).2.map GoError.json }
          | none => { r := ⟨s, NewReader b⟩, v := x, err := none }
        else
          { r := ⟨s, NewReader b⟩, v := x,
            err := some (GoError.api
              ⟨(decodeEnvelope b).1.Code, (decodeEnvelope b).1.Message, s, b⟩) } := by
  unfold parseResponse
  simp only [ReadAll, NewReader, Unmarshal_envelope_status]
  cases h2 : (decodeEnvelope b).2 with
  | some e => simp
  | none => cases hs : (decodeEnvelope b).1.Success <;> cases v <;> simp [hs]

theorem parseResponse_of_bad {α : Type} (s : Int) (b : Bytes) (v : Option (Store α)) (x : α)
    (j : JsonError) (h : (decodeEnvelope b).2 = some j) :
    parseResponse ⟨s, NewReader b⟩ v x
      = { r := ⟨s, NewReader b⟩, v := x,
          err := some (GoError.api ⟨s, StatusText s, s, b⟩) } := by
  rw [parseResponse_eq, h]

theorem parseResponse_of_fail {α : Type} (s : Int) (b : Bytes) (v : Option (Store α)) (x : α)
    (h : (decodeEnvelope b).2 = none) (hs : (decodeEnvelope b).1.Success = false) :
    parseResponse ⟨s, NewReader b⟩ v x
      = { r := ⟨s, NewReader b⟩, v := x,
          err := some (GoError.api
            ⟨(decodeEnvelope b).1.Code, (decodeEnvelope b).1.Message, s, b⟩) } := by
  rw [parseResponse_eq, h]
  simp [hs]

theorem parseResponse_of_success {α : Type} (s : Int) (b : Bytes) (store : Store α) (x : α)
    (h : (decodeEnvelope b).2 = none) (hs : (decodeEnvelope b).1.Success = true) :
    parseResponse ⟨s, NewReader b⟩ (some store) x
      = { r := ⟨s, NewReader b⟩, v := (UnmarshalRaw store (decodeEnvelope b).1.Data x).1,
          err := (UnmarshalRaw store (decodeEnvelope b).1.Data x).2.map GoError.json } := by
  rw [parseResponse_eq, h]
  simp [hs]

theorem parseResponse_of_success_nil {α : Type} (s : Int) (b : Bytes) (x : α)
    (h : (decodeEnvelope b).2 = none) (hs : (decodeEnvelope b).1.Success = true) :
    parseResponse ⟨s, NewReader b⟩ (none : Option (Store α)) x
      = { r := ⟨s, NewReader b⟩, v := x, err := none } := by
  rw [parseResponse_eq, h]
  simp [hs]

theorem parseResponse_api_fields {α : Type} (s : Int) (b : Bytes) (v : Option (Store α)) (x : α)
    (e : Error) (h : (parseResponse ⟨s, NewReader b⟩ v x).err = some (GoError.api e)) :
    e.StatusCode = s ∧ e.Raw = b := by
  cases h2 : (decodeEnvelope b).2 with
  | some j =>
    rw [parseResponse_of_bad s b v x j h2] at h
    simp only [Option.some.injEq, GoError.api.injEq] at h
    subst h
    exact ⟨rfl, rfl⟩
  | none =>
    cases hs : (decodeEnvelope b).1.Success with
    | false =>
      rw [parseResponse_of_fail s b v x h2 hs] at h
      simp only [Option.some.injEq, GoError.api.injEq] at h
      subst h
      exact ⟨rfl, rfl⟩
    | true =>
      cases v with
      | none =>
        rw [parseResponse_of_success_nil s b x h2 hs] at h
        simp at h
      | some store =>
        rw [parseResponse_of_success s b store x h2 hs] at h
        cases h3 : (UnmarshalRaw store (decodeEnvelope b).1.Data x).2 <;> simp [h3] at h

theorem storeStruct_code_codeUrl (c u : Bytes) (x : CreateOneTimePaymentResponse) :
    storeStruct createOneTimePaymentResponseFields
      (JSON.obj [(str "code", JSON.str c), (str "codeUrl", JSON.str u)]) x
      = (⟨c, u⟩, none) := by
  have h1 : findField createOneTimePaymentResponseFields (str "code")
      = some { name := str "code", store := storeString fun c r => { r with Code := c } } := by
    rfl
  have h2 : findField createOneTimePaymentResponseFields (str "codeUrl")
      = some { name := str "codeUrl", store := storeString fun u r => { r with CodeURL := u } } := by
    rfl
  simp [storeStruct, storeMember, h1, h2, storeString]

theorem parseResponse_read_error {α : Type} (r : Response) (v : Option (Store α)) (x : α)
    (e : TransportError) (h : r.Body.err = some e) :
    (parseResponse r v x).err = some (GoError.transport e) := by
  unfold parseResponse
  simp [ReadAll, h]

theorem response_eta (r : Response) (h : r.Body.err = none) :
    r = ⟨r.StatusCode, NewReader r.Body.data⟩ := by
  obtain ⟨s, d, e⟩ := r
  simp only at h
  subst h
  rfl

theorem parseResponse_body {α : Type} (r : Response) (v : Option (Store α)) (x : α)
    (h : r.Body.err = none) :
    (parseResponse r v x).r = ⟨r.StatusCode, NewReader r.Body.data⟩ := by
  rw [response_eta r h]
  cases h2 : (decodeEnvelope r.Body.data).2 with
  | some j => rw [parseResponse_of_bad _ _ v x j h2]; rfl
  | none =>
    cases hs : (decodeEnvelope r.Body.data).1.Success with
    | false => rw [parseResponse_of_fail _ _ v x h2 hs]; rfl
    | true =>
      cases v with
      | none => rw [parseResponse_of_success_nil _ _ x h2 hs]; rfl
      | some store => rw [parseResponse_of_success _ _ store x h2 hs]; rfl

theorem isPlain_spec (c : Byte) (h : isPlain c = true) :
    c ≠ 34 ∧ c ≠ 92 ∧ ¬ c < 32 ∧ c < 128 := by
  simp only [isPlain, Bool.and_eq_true, decide_eq_true_eq, bne_iff_ne, ne_eq] at h
  exact ⟨h.1.2, h.2, not_lt.mpr h.1.1.1, h.1.1.2⟩

theorem scanString_plain (p rest : Bytes) (hp : p.all isPlain = true) (fuel : Nat)
    (hf : p.length < fuel) : scanString fuel (p ++ 34 :: rest) = some (p, rest) := by
  induction p generalizing fuel with
  | nil =>
    cases fuel with
    | zero => simp at hf
    | succ f => simp [scanString]
  | cons c p ih =>
    cases fuel with
    | zero => simp at hf
    | succ f =>
      simp only [List.all_cons, Bool.and_eq_true] at hp
      obtain ⟨h1, h2, h3, h4⟩ := isPlain_spec c hp.1
      have hf2 : p.length < f := by simpa using hf
      simp [scanString, h1, h2, h3, h4, ih hp.2 f hf2, emit]

theorem skipSpace_of_not_space (c : Byte) (rest : Bytes) (h : isSpace c = false) :
    skipSpace (c :: rest) = c :: rest := by
  simp [skipSpace, h]

theorem scanValue_string (f d : Nat) (p rest : Bytes) (hp : p.all isPlain = true) :
    scanValue (f + 1) d (34 :: (p ++ 34 :: rest)) = some (JSON.str p, rest) := by
  have hs : scanString (List.length p + (List.length rest + 1) + 1) (p ++ 34 :: rest)
      = some (p, rest) := scanString_plain p rest hp _ (by omega)
  rw [scanValue, skipSpace_of_not_space _ _ (by decide)]
  simp [hs]

theorem scanValue_true (f d : Nat) (rest : Bytes) :
    scanValue (f + 1) d (116 :: 114 :: 117 :: 101 :: rest) = some (JSON.bool true, rest) := by
  rw [scanValue, skipSpace_of_not_space _ _ (by decide)]
  simp [startsWith, isDigit]

theorem scanMembers_key (f d : Nat) (key rest : Bytes) (acc : List (Bytes × JSON))
    (hk : key.all isPlain = true) :
    scanMembers (f + 1) d (34 :: (key ++ 34 :: 58 :: rest)) acc =
      match scanValue f d rest with
      | none => none
      | some (v, rest4) =>
        match skipSpace rest4 with
        | [] => none
        | e :: rest5 =>
          if e = 44 then scanMembers f d rest5 ((key, v) :: acc)
          else if e = 125 then some (JSON.obj ((key, v) :: acc).reverse, rest5)
          else none := by
  have hs : scanString (List.length (key ++ 34 :: 58 :: rest) + 1) (key ++ 34 :: 58 :: rest)
      = some (key, 58 :: rest) := scanString_plain key (58 :: rest) hk _ (by simp; omega)
  rw [scanMembers, skipSpace_of_not_space _ _ (by decide)]
  simp only [if_true, hs, skipSpace_of_not_space 58 rest (by decide)]

theorem scanValue_object (f d : Nat) (rest : Bytes) (hd : d < maxNestingDepth) :
    scanValue (f + 1) d (123 :: 34 :: rest) = scanMembers f (d + 1) (34 :: rest) [] := by
  rw [scanValue, skipSpace_of_not_space _ _ (by decide)]
  have : ¬ maxNestingDepth ≤ d := by omega
  simp [this, skipSpace_of_not_space 34 rest (by decide)]

theorem paymentEnvelope_eq (c u : Bytes) :
    paymentEnvelope c u
      = 123 :: 34 :: (str "success" ++ 34 :: 58 :: 116 :: 114 :: 117 :: 101 :: 44 :: 34 ::
          (str "data" ++ 34 :: 58 :: 123 :: 34 :: (str "code" ++ 34 :: 58 :: 34 ::
            (c ++ 34 :: 44 :: 34 :: (str "codeUrl" ++ 34 :: 58 :: 34 ::
              (u ++ [34, 125, 125])))))) := by
  have h1 : str "\x7b\"success\":true,\"data\":\x7b\"code\":\""
      = 123 :: 34 :: (str "success" ++ 34 :: 58 :: 116 :: 114 :: 117 :: 101 :: 44 :: 34 ::
          (str "data" ++ 34 :: 58 :: 123 :: 34 :: (str "code" ++ [34, 58, 34]))) := by decide
  have h2 : str "\",\"codeUrl\":\"" = 34 :: 44 :: 34 :: (str "codeUrl" ++ [34, 58, 34]) := by
    decide
  have h3 : str "\"\x7d\x7d" = [34, 125, 125] := by decide
  rw [paymentEnvelope, h1, h2, h3]
  simp only [List.cons_append, List.append_assoc, List.nil_append, List.singleton_append]

theorem parseJSON_paymentEnvelope (c u : Bytes) (hc : c.all isPlain = true)
    (hu : u.all isPlain = true) :
    parseJSON (paymentEnvelope c u)
      = some (JSON.obj [(str "success", JSON.bool true),
          (str "data", JSON.obj [(str "code", JSON.str c), (str "codeUrl", JSON.str u)])]) := by
  have hlen : 3 ≤ (paymentEnvelope c u).length := by
    rw [paymentEnvelope_eq]
    simp only [List.length_cons, List.length_append]
    omega
  obtain ⟨F, hF⟩ : ∃ F, 2 * (paymentEnvelope c u).length + 2 = F + 7 :=
    ⟨2 * (paymentEnvelope c u).length + 2 - 7, by omega⟩
  rw [parseJSON, hF, paymentEnvelope_eq]
  rw [scanValue_object _ _ _ (by decide), scanMembers_key _ _ _ _ _ (by decide),
    scanValue_true]
  simp only [skipSpace_of_not_space 44 _ (by decide), if_true]
  rw [scanMembers_key _ _ _ _ _ (by decide), scanValue_object _ _ _ (by decide),
    scanMembers_key _ _ _ _ _ (by decide), scanValue_string _ _ _ _ hc]
  simp only [skipSpace_of_not_space 44 _ (by decide), if_true]
  rw [scanMembers_key _ _ _ _ _ (by decide), scanValue_string _ _ _ _ hu]
  simp [skipSpace, isSpace]

theorem ofNat_digit_ne_zero (m : Nat) (h : m < 10) (h0 : 0 < m) :
    (Fin.ofNat (48 + m) : Byte) ≠ 48 := by
  interval_cases m <;> decide

theorem toDigitsCore_lead (fuel n : Nat) (h : n < fuel) (h0 : 0 < n) :
    ∃ d ds, ((Nat.toDigitsCore 10 fuel n []).map fun c => (Fin.ofNat c.toNat : Byte)) = d :: ds
      ∧ d ≠ 48 := by
  induction fuel generalizing n with
  | zero => omega
  | succ fuel ih =>
    have hm : n % 10 < 10 := Nat.mod_lt _ (by decide)
    simp only [Nat.toDigitsCore]
    split
    · rename_i hz
      have hn : n % 10 = n := by omega
      refine ⟨Fin.ofNat (48 + n % 10), [], ?_, ?_⟩
      · simp only [List.map_cons, List.map_nil, digitChar_byte_lt _ hm]
      · exact ofNat_digit_ne_zero _ hm (by omega)
    · rename_i hz
      obtain ⟨d, ds, h1, h2⟩ := ih (n / 10) (by omega) (by omega)
      rw [toDigitsCore_append]
      refine ⟨d, ds ++ [Fin.ofNat (Nat.digitChar (n % 10)).toNat], ?_, h2⟩
      simp only [List.map_append, List.map_cons, List.map_nil, h1, List.cons_append]

theorem natDigits_zero : natDigits 0 = [48] := by decide

theorem natDigits_shape (n : Nat) :
    ∃ d ds, natDigits n = d :: ds ∧ isDigit d = true ∧ ds.all isDigit = true
      ∧ (d = 48 → ds = []) := by
  obtain ⟨_, h2, d, ds, h3, h4⟩ := natDigits_spec n
  refine ⟨d, ds, h3, h4, ?_, ?_⟩
  · rw [h3] at h2
    simp only [List.all_cons, Bool.and_eq_true] at h2
    exact h2.2
  · intro hd
    by_cases h0 : n = 0
    · subst h0
      rw [natDigits_zero] at h3
      cases h3
      rfl
    · obtain ⟨d2, ds2, h5, h6⟩ := toDigitsCore_lead (n + 1) n (Nat.lt_succ_self n) (by omega)
      have : natDigits n = d2 :: ds2 := h5
      rw [h3] at this
      cases this
      exact absurd hd h6

theorem takeDigits_digits (ds rest : Bytes) (c : Byte) (hds : ds.all isDigit = true)
    (hc : isDigit c = false) : takeDigits (ds ++ c :: rest) = (ds, c :: rest) := by
  induction ds with
  | nil => simp [takeDigits, hc]
  | cons d ds ih =>
    simp only [List.all_cons, Bool.and_eq_true] at hds
    simp [takeDigits, hds.1, ih hds.2]

theorem scanInt_natDigits (n : Nat) (rest : Bytes) :
    scanInt (natDigits n ++ 44 :: rest) = some (natDigits n, 44 :: rest) := by
  obtain ⟨d, ds, h1, h2, h3, h4⟩ := natDigits_shape n
  rw [h1]
  by_cases hd : d = 48
  · have := h4 hd
    subst this
    subst hd
    simp [scanInt]
  · simp [scanInt, hd, h2, takeDigits_digits ds rest 44 h3 (by decide)]

theorem scanNumber_FormatInt (n : Int) (rest : Bytes) :
    scanNumber (FormatInt n ++ 44 :: rest) = some (FormatInt n, 44 :: rest) := by
  unfold FormatInt
  by_cases hneg : n < 0
  · simp [hneg, scanNumber, scanInt_natDigits, scanFrac, scanExp]
  · obtain ⟨d, ds, h1, h2, _, _⟩ := natDigits_shape n.toNat
    have hd := (isDigit_ne d h2).1
    have hs : scanInt (natDigits n.toNat ++ 44 :: rest) = some (natDigits n.toNat, 44 :: rest) :=
      scanInt_natDigits _ _
    rw [h1, List.cons_append] at hs
    simp [hneg, scanNumber, h1, hd, hs, scanFrac, scanExp]

theorem FormatInt_head (n : Int) :
    ∃ d ds, FormatInt n = d :: ds ∧ (d = 45 ∨ isDigit d = true) := by
  unfold FormatInt
  by_cases hneg : n < 0
  · exact ⟨45, natDigits n.natAbs, by simp [hneg], Or.inl rfl⟩
  · obtain ⟨d, ds, h1, h2, _, _⟩ := natDigits_shape n.toNat
    exact ⟨d, ds, by simp [hneg, h1], Or.inr h2⟩

theorem sign_or_digit (d : Byte) (h : d = 45 ∨ isDigit d = true) :
    isSpace d = false ∧ d ≠ 123 ∧ d ≠ 91 ∧ d ≠ 34 := by
  rcases h with rfl | h
  · decide
  · refine ⟨?_, ?_, ?_, ?_⟩
    · cases hs : isSpace d
      · rfl
      · simp only [isSpace, Bool.or_eq_true, beq_iff_eq] at hs
        rcases hs with ((rfl | rfl) | rfl) | rfl <;> exact absurd h (by decide)
    · rintro rfl; exact absurd h (by decide)
    · rintro rfl; exact absurd h (by decide)
    · rintro rfl; exact absurd h (by decide)

theorem scanValue_number (f d : Nat) (n : Int) (rest : Bytes) :
    scanValue (f + 1) d (FormatInt n ++ 44 :: rest) = some (JSON.num (FormatInt n), 44 :: rest) := by
  have hs := scanNumber_FormatInt n rest
  obtain ⟨c, cs, h1, h2⟩ := FormatInt_head n
  obtain ⟨g1, g2, g3, g4⟩ := sign_or_digit c h2
  rw [h1] at hs ⊢
  rw [List.cons_append] at hs ⊢
  rw [scanValue, skipSpace_of_not_space _ _ g1]
  simp only [g2, g3, g4, if_false, h2, if_true, hs, Option.map_some']

theorem scanValue_false (f d : Nat) (rest : Bytes) :
    scanValue (f + 1) d (102 :: 97 :: 108 :: 115 :: 101 :: rest)
      = some (JSON.bool false, rest) := by
  rw [scanValue, skipSpace_of_not_space _ _ (by decide)]
  simp [startsWith, isDigit]

theorem failureEnvelope_eq (n : Int) (m : Bytes) :
    failureEnvelope n m
      = 123 :: 34 :: (str "success" ++ 34 :: 58 :: 102 :: 97 :: 108 :: 115 :: 101 :: 44 :: 34 ::
          (str "code" ++ 34 :: 58 :: (FormatInt n ++ 44 :: 34 ::
            (str "message" ++ 34 :: 58 :: 34 :: (m ++ [34, 125]))))) := by
  have h1 : str "\x7b\"success\":false,\"code\":"
      = 123 :: 34 :: (str "success" ++ 34 :: 58 :: 102 :: 97 :: 108 :: 115 :: 101 :: 44 :: 34 ::
          (str "code" ++ [34, 58])) := by decide
  have h2 : str ",\"message\":\"" = 44 :: 34 :: (str "message" ++ [34, 58, 34]) := by decide
  have h3 : str "\"\x7d" = [34, 125] := by decide
  rw [failureEnvelope, h1, h2, h3]
  simp only [List.cons_append, List.append_assoc, List.nil_append, List.singleton_append]

theorem parseJSON_failureEnvelope (n : Int) (m : Bytes) (hm : m.all isPlain = true) :
    parseJSON (failureEnvelope n m)
      = some (JSON.obj [(str "success", JSON.bool false), (str "code", JSON.num (FormatInt n)),
          (str "message", JSON.str m)]) := by
  have hlen : 3 ≤ (failureEnvelope n m).length := by
    rw [failureEnvelope_eq]
    simp only [List.length_cons, List.length_append]
    omega
  obtain ⟨F, hF⟩ : ∃ F, 2 * (failureEnvelope n m).length + 2 = F + 7 :=
    ⟨2 * (failureEnvelope n m).length + 2 - 7, by omega⟩
  rw [parseJSON, hF, failureEnvelope_eq]
  rw [scanValue_object _ _ _ (by decide), scanMembers_key _ _ _ _ _ (by decide),
    scanValue_false]
  simp only [skipSpace_of_not_space 44 _ (by decide), if_true]
  rw [scanMembers_key _ _ _ _ _ (by decide), scanValue_number]
  simp only [skipSpace_of_not_space 44 _ (by decide), if_true]
  rw [scanMembers_key _ _ _ _ _ (by decide), scanValue_string _ _ _ _ hm]
  simp [skipSpace, isSpace]

theorem decodeEnvelope_of_payment_object (b : Bytes) (d : JSON)
    (hj : parseJSON b = some (JSON.obj [(str "success", JSON.bool true), (str "data", d)])) :
    (decodeEnvelope b).2 = none ∧ (decodeEnvelope b).1.Success = true
    ∧ (decodeEnvelope b).1.Data = some d := by
  have h1 : findField envelopeFields (str "success") = envelopeFields[4]? := by rfl
  have h2 : findField envelopeFields (str "data") = envelopeFields[2]? := by rfl
  simp only [decodeEnvelope, Unmarshal, hj, storeStruct, List.foldl, storeMember, h1, h2]
  simp [envelopeFields, storeBool, storeRaw, Envelope.zero]

/-! ### The fuel of the JSON scanner -/

theorem scan_mono (f : Nat) :
    (∀ d i r, scanValue f d i = some r → scanValue (f + 1) d i = some r)
    ∧ (∀ d i acc r, scanElems f d i acc = some r → scanElems (f + 1) d i acc = some r)
    ∧ (∀ d i acc r, scanMembers f d i acc = some r → scanMembers (f + 1) d i acc = some r) := by
  induction f with
  | zero =>
    refine ⟨?_, ?_, ?_⟩ <;> intros <;> simp_all [scanValue, scanElems, scanMembers]
  | succ f ih =>
    obtain ⟨ihV, ihE, ihM⟩ := ih
    refine ⟨?_, ?_, ?_⟩
    · intro d i r h
      rw [scanValue] at h ⊢
      repeat' split at h
      all_goals first
        | (exfalso; simp at h; done)
        | (simp_all; done)
        | (simp_all; first | exact ihM _ _ _ _ _ h | exact ihE _ _ _ _ _ h)
    · intro d i acc r h
      rw [scanElems] at h ⊢
      cases hv : scanValue f d i with
      | none => simp [hv] at h
      | some p =>
        obtain ⟨v, rest⟩ := p
        rw [ihV _ _ _ hv]
        simp only [hv] at h ⊢
        cases hs : skipSpace rest with
        | nil => simp [hs] at h
        | cons c rest2 =>
          simp only [hs] at h ⊢
          by_cases h44 : c = 44
          · simp only [h44, if_true] at h ⊢
            exact ihE _ _ _ _ h
          · simp only [h44, if_false] at h ⊢
            exact h
    · intro d i acc r h
      rw [scanMembers] at h ⊢
      cases hs0 : skipSpace i with
      | nil => simp [hs0] at h
      | cons q rest =>
        simp only [hs0] at h ⊢
        by_cases hq : q = 34
        · simp only [hq, if_true] at h ⊢
          cases hk : scanString (rest.length + 1) rest with
          | none => simp [hk] at h
          | some p =>
            obtain ⟨key, rest2⟩ := p
            simp only [hk] at h ⊢
            cases hs1 : skipSpace rest2 with
            | nil => simp [hs1] at h
            | cons c rest3 =>
              simp only [hs1] at h ⊢
              by_cases hc : c = 58
              · simp only [hc, if_true] at h ⊢
                cases hv : scanValue f d rest3 with
                | none => simp [hv] at h
                | some p =>
                  obtain ⟨v, rest4⟩ := p
                  rw [ihV _ _ _ hv]
                  simp only [hv] at h ⊢
                  cases hs2 : skipSpace rest4 with
                  | nil => simp [hs2] at h
                  | cons e rest5 =>
                    simp only [hs2] at h ⊢
                    by_cases h44 : e = 44
                    · simp only [h44, if_true] at h ⊢
                      exact ihM _ _ _ _ h
                    · simp only [h44, if_false] at h ⊢
                      exact h
              · simp [hc] at h
        · simp [hq] at h

theorem skipSpace_length (i : Bytes) : (skipSpace i).length ≤ i.length := by
  induction i with
  | nil => simp [skipSpace]
  | cons c rest ih =>
    simp only [skipSpace]
    split
    · simp only [List.length_cons]; omega
    · exact Nat.le_refl _

theorem takeDigits_length (i : Bytes) : (takeDigits i).2.length ≤ i.length := by
  induction i with
  | nil => simp [takeDigits]
  | cons c rest ih =>
    simp only [takeDigits]
    split
    · simp only [List.length_cons]; omega
    · exact Nat.le_refl _

theorem scanInt_length (i lit rest : Bytes) (h : scanInt i = some (lit, rest)) :
    rest.length < i.length := by
  cases i with
  | nil => simp [scanInt] at h
  | cons c r =>
    simp only [scanInt] at h
    split at h
    · simp only [Option.some.injEq, Prod.mk.injEq] at h
      rw [← h.2]; simp
    · split at h
      · simp only [Option.some.injEq, Prod.mk.injEq] at h
        rw [← h.2]
        have := takeDigits_length r
        simp only [List.length_cons]; omega
      · simp at h

theorem scanFrac_length (i lit rest : Bytes) (h : scanFrac i = some (lit, rest)) :
    rest.length ≤ i.length := by
  cases i with
  | nil =>
    simp only [scanFrac, Option.some.injEq, Prod.mk.injEq] at h
    rw [← h.2]
  | cons c r =>
    simp only [scanFrac] at h
    split at h
    · split at h
      · simp at h
      · simp only [Option.some.injEq, Prod.mk.injEq] at h
        rw [← h.2]
        have := takeDigits_length r
        simp only [List.length_cons]; omega
    · simp only [Option.some.injEq, Prod.mk.injEq] at h
      rw [← h.2]

theorem scanExpDigits_length (pre i lit rest : Bytes)
    (h : scanExpDigits pre i = some (lit, rest)) : rest.length ≤ i.length := by
  simp only [scanExpDigits] at h
  split at h
  · simp at h
  · simp only [Option.some.injEq, Prod.mk.injEq] at h
    rw [← h.2]
    exact takeDigits_length i

theorem scanExp_length (i lit rest : Bytes) (h : scanExp i = some (lit, rest)) :
    rest.length ≤ i.length := by
  cases i with
  | nil =>
    simp only [scanExp, Option.some.injEq, Prod.mk.injEq] at h
    rw [← h.2]
  | cons c r =>
    simp only [scanExp] at h
    split at h
    · cases r with
      | nil => simp at h
      | cons d r2 =>
        simp only at h
        split at h
        · have := scanExpDigits_length _ _ _ _ h
          simp only [List.length_cons]; omega
        · have := scanExpDigits_length _ _ _ _ h
          simp only [List.length_cons] at this ⊢; omega
    · simp only [Option.some.injEq, Prod.mk.injEq] at h
      rw [← h.2]

theorem scanNumber_length (i lit rest : Bytes) (h : scanNumber i = some (lit, rest)) :
    rest.length < i.length := by
  simp only [scanNumber] at h
  split at h
  · simp at h
  · rename_i ip r1 h1
    split at h
    · simp at h
    · rename_i fp r2 h2
      split at h
      · simp at h
      · rename_i ep r3 h3
        simp only [Option.some.injEq, Prod.mk.injEq] at h
        rw [← h.2]
        have a1 := scanInt_length _ _ _ h1
        have a2 := scanFrac_length _ _ _ h2
        have a3 := scanExp_length _ _ _ h3
        simp only [List.length_drop] at a1
        omega

theorem getu4_length (i rest : Bytes) (r : Nat) (h : getu4 i = some (r, rest)) :
    rest.length < i.length := by
  rcases i with _ | ⟨a, _ | ⟨b, _ | ⟨c, _ | ⟨d, _ | ⟨e, _ | ⟨g, t⟩⟩⟩⟩⟩⟩ <;>
    simp only [getu4] at h <;> try (simp at h; done)
  split at h
  · simp only [Option.some.injEq, Prod.mk.injEq] at h
    rw [← h.2]
    simp only [List.length_cons]; omega
  · simp at h

theorem emit_some (pre : Bytes) (r : Option (Bytes × Bytes)) (s rest : Bytes)
    (h : emit pre r = some (s, rest)) : ∃ s2, r = some (s2, rest) := by
  cases r with
  | none => simp [emit] at h
  | some p =>
    obtain ⟨a, b⟩ := p
    simp only [emit, Option.map_some', Option.some.injEq, Prod.mk.injEq] at h
    exact ⟨a, by rw [h.2]⟩

theorem scanString_length (f : Nat) (i s rest : Bytes) (h : scanString f i = some (s, rest)) :
    rest.length < i.length := by
  induction f generalizing i s with
  | zero => simp [scanString] at h
  | succ f ih =>
    cases i with
    | nil => simp [scanString] at h
    | cons c r =>
      simp only [scanString] at h
      repeat' split at h
      all_goals first
        | (exfalso; simp at h; done)
        | (simp only [Option.some.injEq, Prod.mk.injEq] at h; rw [← h.2]; simp)
        | (obtain ⟨s2, h2⟩ := emit_some _ _ _ _ h
           first
             | exact lt_trans (ih _ _ h2) (getu4_length _ _ _ (by assumption))
             | exact lt_trans (ih _ _ h2)
                 (lt_trans (getu4_length _ _ _ (by assumption))
                   (getu4_length _ _ _ (by assumption)))
             | (have a1 := ih _ _ h2
                simp only [List.length_cons, List.length_drop] at *
                omega))

theorem scanValue_mono_le (f g d : Nat) (i : Bytes) (r : JSON × Bytes)
    (h : scanValue f d i = some r) (hle : f ≤ g) : scanValue g d i = some r := by
  induction hle with
  | refl => exact h
  | step _ ih => exact (scan_mono _).1 _ _ _ ih

theorem scanElems_mono_le (f g d : Nat) (i : Bytes) (acc : List JSON) (r : JSON × Bytes)
    (h : scanElems f d i acc = some r) (hle : f ≤ g) : scanElems g d i acc = some r := by
  induction hle with
  | refl => exact h
  | step _ ih => exact (scan_mono _).2.1 _ _ _ _ ih

theorem scanMembers_mono_le (f g d : Nat) (i : Bytes) (acc : List (Bytes × JSON))
    (r : JSON × Bytes) (h : scanMembers f d i acc = some r) (hle : f ≤ g) :
    scanMembers g d i acc = some r := by
  induction hle with
  | refl => exact h
  | step _ ih => exact (scan_mono _).2.2 _ _ _ _ ih

theorem scan_adequate (f : Nat) :
    (∀ d i v rest, scanValue f d i = some (v, rest) →
      rest.length < i.length ∧ scanValue (2 * (i.length - rest.length)) d i = some (v, rest))
    ∧ (∀ d i acc v rest, scanElems f d i acc = some (v, rest) →
      rest.length < i.length
      ∧ scanElems (2 * (i.length - rest.length) + 1) d i acc = some (v, rest))
    ∧ (∀ d i acc v rest, scanMembers f d i acc = some (v, rest) →
      rest.length < i.length
      ∧ scanMembers (2 * (i.length - rest.length)) d i acc = some (v, rest)) := by
  induction f with
  | zero =>
    refine ⟨?_, ?_, ?_⟩ <;> intros <;> simp_all [scanValue, scanElems, scanMembers]
  | succ f ih =>
    obtain ⟨ihV, ihE, ihM⟩ := ih
    refine ⟨?_, ?_, ?_⟩
    · intro d i v rest h
      have h0 := h
      rw [scanValue] at h
      cases hs0 : skipSpace i with
      | nil => simp [hs0] at h
      | cons c r0 =>
        have l0 := skipSpace_length i
        rw [hs0] at l0
        simp only [List.length_cons] at l0
        simp only [hs0] at h
        by_cases h123 : c = 123
        · simp only [h123, if_true] at h
          by_cases hd : maxNestingDepth ≤ d
          · simp [hd] at h
          · simp only [hd, if_false] at h
            cases hs1 : skipSpace r0 with
            | nil => simp [hs1] at h
            | cons e r1 =>
              have l1 := skipSpace_length r0
              rw [hs1] at l1
              simp only [List.length_cons] at l1
              simp only [hs1] at h
              by_cases h125 : e = 125
              · simp only [h125, if_true, Option.some.injEq, Prod.mk.injEq] at h
                have hlt : rest.length < i.length := by rw [← h.2]; omega
                refine ⟨hlt, ?_⟩
                obtain ⟨F, hF⟩ : ∃ F, 2 * (i.length - rest.length) = F + 1 :=
                  ⟨2 * (i.length - rest.length) - 1, by omega⟩
                rw [hF, scanValue]
                simp only [hs0, h123, if_true, hd, if_false, hs1, h125, h.1, h.2]
              · simp only [h125, if_false] at h
                obtain ⟨hlt, hm⟩ := ihM _ _ _ _ _ h
                simp only [List.length_cons] at hlt hm
                have hlt2 : rest.length < i.length := by omega
                refine ⟨hlt2, ?_⟩
                obtain ⟨F, hF⟩ : ∃ F, 2 * (i.length - rest.length) = F + 1 :=
                  ⟨2 * (i.length - rest.length) - 1, by omega⟩
                rw [hF, scanValue]
                simp only [hs0, h123, if_true, hd, if_false, hs1, h125]
                exact scanMembers_mono_le _ _ _ _ _ _ hm (by omega)
        · simp only [h123, if_false] at h
          by_cases h91 : c = 91
          · simp only [h91, if_true] at h
            by_cases hd : maxNestingDepth ≤ d
            · simp [hd] at h
            · simp only [hd, if_false] at h
              cases hs1 : skipSpace r0 with
              | nil => simp [hs1] at h
              | cons e r1 =>
                have l1 := skipSpace_length r0
                rw [hs1] at l1
                simp only [List.length_cons] at l1
                simp only [hs1] at h
                by_cases h93 : e = 93
                · simp only [h93, if_true, Option.some.injEq, Prod.mk.injEq] at h
                  have hlt : rest.length < i.length := by rw [← h.2]; omega
                  refine ⟨hlt, ?_⟩
                  obtain ⟨F, hF⟩ : ∃ F, 2 * (i.length - rest.length) = F + 1 :=
                    ⟨2 * (i.length - rest.length) - 1, by omega⟩
                  rw [hF, scanValue]
                  simp [hs0, h91, hd, hs1, h93, h.1, h.2]
                · simp only [h93, if_false] at h
                  obtain ⟨hlt, hm⟩ := ihE _ _ _ _ _ h
                  simp only [List.length_cons] at hlt hm
                  have hlt2 : rest.length < i.length := by omega
                  refine ⟨hlt2, ?_⟩
                  obtain ⟨F, hF⟩ : ∃ F, 2 * (i.length - rest.length) = F + 1 :=
                    ⟨2 * (i.length - rest.length) - 1, by omega⟩
                  rw [hF, scanValue]
                  simp only [hs0, h123, h91, if_true, hd, if_false, hs1, h93]
                  exact scanElems_mono_le _ _ _ _ _ _ hm (by omega)
          · simp only [h91, if_false] at h
            have hlt : rest.length < i.length := by
              by_cases h34 : c = 34
              · simp only [h34, if_true] at h
                cases hk : scanString (r0.length + 1) r0 with
                | none => simp [hk] at h
                | some p =>
                  obtain ⟨a, b⟩ := p
                  have := scanString_length _ _ _ _ hk
                  simp only [hk, Option.map_some', Option.some.injEq, Prod.mk.injEq] at h
                  rw [← h.2]
                  omega
              · simp only [h34, if_false] at h
                split at h
                · cases hk : scanNumber (c :: r0) with
                  | none => simp [hk] at h
                  | some p =>
                    obtain ⟨a, b⟩ := p
                    have := scanNumber_length _ _ _ hk
                    simp only [List.length_cons] at this
                    simp only [hk, Option.map_some', Option.some.injEq, Prod.mk.injEq] at h
                    rw [← h.2]
                    omega
                · repeat' split at h
                  all_goals first
                    | (exfalso; simp at h; done)
                    | (simp only [Option.some.injEq, Prod.mk.injEq] at h
                       rw [← h.2]
                       simp only [List.length_drop]
                       omega)
            refine ⟨hlt, ?_⟩
            obtain ⟨F, hF⟩ : ∃ F, 2 * (i.length - rest.length) = F + 1 :=
              ⟨2 * (i.length - rest.length) - 1, by omega⟩
            rw [hF, scanValue]
            simp only [hs0, h123, h91, if_false]
            exact h
    · intro d i acc v rest h
      rw [scanElems] at h
      cases hv : scanValue f d i with
      | none => simp [hv] at h
      | some p =>
        obtain ⟨v1, r1⟩ := p
        obtain ⟨lv, hv2⟩ := ihV _ _ _ _ hv
        simp only [hv] at h
        cases hs : skipSpace r1 with
        | nil => simp [hs] at h
        | cons c r2 =>
          have l1 := skipSpace_length r1
          rw [hs] at l1
          simp only [List.length_cons] at l1
          simp only [hs] at h
          by_cases h44 : c = 44
          · simp only [h44, if_true] at h
            obtain ⟨le, he⟩ := ihE _ _ _ _ _ h
            have hlt : rest.length < i.length := by omega
            refine ⟨hlt, ?_⟩
            rw [scanElems, scanValue_mono_le _ _ _ _ _ hv2 (by omega)]
            simp only [hs, h44, if_true]
            exact scanElems_mono_le _ _ _ _ _ _ he (by omega)
          · simp only [h44, if_false] at h
            by_cases h93 : c = 93
            · simp only [h93, if_true, Option.some.injEq, Prod.mk.injEq] at h
              have hlt : rest.length < i.length := by rw [← h.2]; omega
              refine ⟨hlt, ?_⟩
              rw [scanElems, scanValue_mono_le _ _ _ _ _ hv2 (by rw [← h.2]; omega)]
              simp [hs, h93, ← h.1, h.2]
            · simp [h93] at h
    · intro d i acc v rest h
      rw [scanMembers] at h
      cases hs0 : skipSpace i with
      | nil => simp [hs0] at h
      | cons q r0 =>
        have l0 := skipSpace_length i
        rw [hs0] at l0
        simp only [List.length_cons] at l0
        simp only [hs0] at h
        by_cases hq : q = 34
        · simp only [hq, if_true] at h
          cases hk : scanString (r0.length + 1) r0 with
          | none => simp [hk] at h
          | some p =>
            obtain ⟨key, r2⟩ := p
            have lk := scanString_length _ _ _ _ hk
            simp only [hk] at h
            cases hs1 : skipSpace r2 with
            | nil => simp [hs1] at h
            | cons c r3 =>
              have l1 := skipSpace_length r2
              rw [hs1] at l1
              simp only [List.length_cons] at l1
              simp only [hs1] at h
              by_cases hc : c = 58
              · simp only [hc, if_true] at h
                cases hv : scanValue f d r3 with
                | none => simp [hv] at h
                | some p =>
                  obtain ⟨v1, r4⟩ := p
                  obtain ⟨lv, hv2⟩ := ihV _ _ _ _ hv
                  simp only [hv] at h
                  cases hs2 : skipSpace r4 with
                  | nil => simp [hs2] at h
                  | cons e r5 =>
                    have l2 := skipSpace_length r4
                    rw [hs2] at l2
                    simp only [List.length_cons] at l2
                    simp only [hs2] at h
                    by_cases h44 : e = 44
                    · simp only [h44, if_true] at h
                      obtain ⟨lm, hm⟩ := ihM _ _ _ _ _ h
                      have hlt : rest.length < i.length := by omega
                      refine ⟨hlt, ?_⟩
                      obtain ⟨F, hF⟩ : ∃ F, 2 * (i.length - rest.length) = F + 1 :=
                        ⟨2 * (i.length - rest.length) - 1, by omega⟩
                      rw [hF, scanMembers]
                      simp only [hs0, hq, if_true, hk, hs1, hc]
                      rw [scanValue_mono_le _ _ _ _ _ hv2 (by omega)]
                      simp only [hs2, h44, if_true]
                      exact scanMembers_mono_le _ _ _ _ _ _ hm (by omega)
                    · simp only [h44, if_false] at h
                      by_cases h125 : e = 125
                      · simp only [h125, if_true, Option.some.injEq, Prod.mk.injEq] at h
                        have hlt : rest.length < i.length := by rw [← h.2]; omega
                        refine ⟨hlt, ?_⟩
                        obtain ⟨F, hF⟩ : ∃ F, 2 * (i.length - rest.length) = F + 1 :=
                          ⟨2 * (i.length - rest.length) - 1, by omega⟩
                        rw [hF, scanMembers]
                        simp only [hs0, hq, if_true, hk, hs1, hc]
                        rw [scanValue_mono_le _ _ _ _ _ hv2 (by rw [← h.2] at hF; omega)]
                        simp [hs2, h125, ← h.1, h.2]
                      · simp [h125] at h
              · simp [hc] at h
        · simp [hq] at h

theorem emit_congr (pre : Bytes) (g g2 : Option (Bytes × Bytes)) (r : Bytes × Bytes)
    (h : emit pre g = some r) (hg : ∀ p, g = some p → g2 = some p) : emit pre g2 = some r := by
  cases g with
  | none => simp [emit] at h
  | some p => rw [hg p rfl]; exact h

theorem scanString_mono (f : Nat) (i : Bytes) (r : Bytes × Bytes)
    (h : scanString f i = some r) : scanString (f + 1) i = some r := by
  induction f generalizing i r with
  | zero => simp [scanString] at h
  | succ f ih =>
    cases i with
    | nil => simp [scanString] at h
    | cons c rest =>
      simp only [scanString] at h ⊢
      repeat' split at h
      all_goals first
        | (exfalso; simp at h; done)
        | (simp_all; done)
        | (have h3 := emit_congr _ _ _ _ h (fun p hp => ih _ _ hp)
           simp_all)

theorem scanString_mono_le (f g : Nat) (i : Bytes) (r : Bytes × Bytes)
    (h : scanString f i = some r) (hle : f ≤ g) : scanString g i = some r := by
  induction hle with
  | refl => exact h
  | step _ ih => exact scanString_mono _ _ _ ih

theorem utf8Size_pos (i : Bytes) (n : Nat) (h : utf8Size i = some n) : 1 ≤ n := by
  unfold utf8Size at h
  repeat' split at h
  all_goals first
    | (exfalso; simp at h; done)
    | (simp only [Option.some.injEq] at h; omega)

theorem scanString_adequate (f : Nat) (i s rest : Bytes) (h : scanString f i = some (s, rest)) :
    scanString (i.length - rest.length) i = some (s, rest) := by
  induction f generalizing i s with
  | zero => simp [scanString] at h
  | succ f ih =>
    have hlt := scanString_length _ _ _ _ h
    obtain ⟨F, hF⟩ : ∃ F, i.length - rest.length = F + 1 :=
      ⟨i.length - rest.length - 1, by omega⟩
    cases i with
    | nil => simp [scanString] at h
    | cons c r0 =>
      rw [hF]
      simp only [scanString] at h ⊢
      repeat' split at h
      all_goals first
        | (exfalso; simp at h; done)
        | (simp_all; done)
        | (obtain ⟨s2, h2⟩ := emit_some _ _ _ _ h
           have h3 := ih _ _ h2
           have l3 := scanString_length _ _ _ _ h2
           have h4 := emit_congr _ _ (scanString F _) _ h (fun p hp => by
             rw [hp] at h2
             cases h2
             refine scanString_mono_le _ _ _ _ h3 ?_
             first
               | (have a2 := getu4_length (_ :: _) _ _ (by assumption)
                  have a3 := getu4_length _ _ _ (by assumption)
                  simp only [List.length_cons, List.length_drop] at *
                  omega)
               | (have a4 := utf8Size_pos _ _ (by assumption)
                  simp only [List.length_cons, List.length_drop] at *
                  omega)
               | (simp only [List.length_cons, List.length_drop] at *
                  omega))
           simp_all)

/-- The fuel `scanValue` gives `scanString`, one step more than the bytes left,
is never used up: whatever a larger fuel scans, it scans. -/
theorem scanString_fuel (g : Nat) (i : Bytes) (r : Bytes × Bytes)
    (h : scanString g i = some r) : scanString (i.length + 1) i = some r := by
  obtain ⟨s, rest⟩ := r
  exact scanString_mono_le _ _ _ _ (scanString_adequate _ _ _ _ h) (by omega)

/-- The fuel of `parseJSON`, two steps per input byte and two more, is never
used up: whatever value any fuel scans at the head of the input, it scans. -/
theorem scanValue_fuel (f d : Nat) (i : Bytes) (r : JSON × Bytes)
    (h : scanValue f d i = some r) : scanValue (2 * i.length + 2) d i = some r := by
  obtain ⟨v, rest⟩ := r
  exact scanValue_mono_le _ _ _ _ _ ((scan_adequate f).1 d i v rest h).2 (by omega)

/-- A value scanned with any fuel and followed by white space only is the value
`parseJSON` returns. -/
theorem parseJSON_of_scanValue (f : Nat) (i rest : Bytes) (v : JSON)
    (h : scanValue f 0 i = some (v, rest)) (hr : skipSpace rest = []) :
    parseJSON i = some v := by
  simp [parseJSON, scanValue_fuel f 0 i _ h, hr]

/-! ## The claims -/

theorem decodeEnvelope_of_failure_object (b lit m : Bytes) (n : Int)
    (hj : parseJSON b = some (JSON.obj [(str "success", JSON.bool false),
      (str "code", JSON.num lit), (str "message", JSON.str m)]))
    (hn : parseInt64 lit = some n) :
    (decodeEnvelope b).2 = none ∧ (decodeEnvelope b).1.Success = false
    ∧ (decodeEnvelope b).1.Code = n ∧ (decodeEnvelope b).1.Message = m := by
  have h1 : findField envelopeFields (str "success") = envelopeFields[4]? := by rfl
  have h2 : findField envelopeFields (str "code") = envelopeFields[0]? := by rfl
  have h3 : findField envelopeFields (str "message") = envelopeFields[1]? := by rfl
  simp only [decodeEnvelope, Unmarshal, hj, storeStruct, List.foldl, storeMember, h1, h2, h3]
  simp [envelopeFields, storeBool, storeInt, storeString, hn, Envelope.zero]

/-- Claim C1.  For every status code `s` and every body `b` that parses as the
envelope without error and with `success` false (or absent), `parseResponse`
returns the structured error with `StatusCode = s`, `Raw = b` and the code and
message of the envelope, and leaves the target alone, whatever the target.  No
body can override `StatusCode` or `Raw`: every structured error that
`parseResponse` returns carries the status and the body of the response.  The
code and message of the envelope are those of its JSON members: when the body
is the object with `success` false, a `code` number and a `message` string,
these are the `Code` and the `Message` of the error; so it is for the envelope
text with any 64-bit code and any message of plain characters. -/
theorem parseResponse_envelope_failure {α : Type} (s : Int) (b : Bytes) (v : Option (Store α))
    (x : α) :
    ((decodeEnvelope b).2 = none → (decodeEnvelope b).1.Success = false →
      (parseResponse ⟨s, NewReader b⟩ v x).err
        = some (GoError.api ⟨(decodeEnvelope b).1.Code, (decodeEnvelope b).1.Message, s, b⟩)
      ∧ (parseResponse ⟨s, NewReader b⟩ v x).v = x)
    ∧ (∀ e : Error, (parseResponse ⟨s, NewReader b⟩ v x).err = some (GoError.api e) →
        e.StatusCode = s ∧ e.Raw = b)
    ∧ (∀ (lit m : Bytes) (n : Int),
        parseJSON b = some (JSON.obj [(str "success", JSON.bool false),
          (str "code", JSON.num lit), (str "message", JSON.str m)]) →
        parseInt64 lit = some n →
        (parseResponse ⟨s, NewReader b⟩ v x).err = some (GoError.api ⟨n, m, s, b⟩))
    ∧ (∀ (n : Int) (m : Bytes), -(2 : Int) ^ 63 ≤ n → n < (2 : Int) ^ 63 →
        m.all isPlain = true →
        (parseResponse ⟨s, NewReader (failureEnvelope n m)⟩ v x).err
          = some (GoError.api ⟨n, m, s, failureEnvelope n m⟩)) := by
  refine ⟨?_, fun e h => parseResponse_api_fields s b v x e h, ?_, ?_⟩
  · intro hparse hfail
    rw [parseResponse_of_fail s b v x hparse hfail]
    exact ⟨rfl, rfl⟩
  · intro lit m n hj hn
    obtain ⟨h1, h2, h3, h4⟩ := decodeEnvelope_of_failure_object b lit m n hj hn
    rw [parseResponse_of_fail s b v x h1 h2, h3, h4]
  · intro n m hlo hhi hm
    obtain ⟨h1, h2, h3, h4⟩ := decodeEnvelope_of_failure_object (failureEnvelope n m)
      (FormatInt n) m n (parseJSON_failureEnvelope n m hm) (parseInt64_FormatInt n hlo hhi)
    rw [parseResponse_of_fail s _ v x h1 h2, h3, h4]

/-- Claim C1 at the failure envelope with code 42 and status 400. -/
theorem parseResponse_envelope_failure_witness :
    (parseResponse ⟨400, NewReader failureBody⟩ (none : Option (Store Unit)) ()).err
      = some (GoError.api ⟨42, str "bad request", 400, failureBody⟩)
    ∧ failureBody = failureEnvelope 42 (str "bad request") :=
  ⟨((parseResponse_envelope_failure 400 failureBody none ()).1 (by decide)
      (by decide)).1.trans (by decide),
   by decide⟩

/-- Claim C2.  For every status code `s` and every body `b` that does not parse
as the envelope (`json.Unmarshal` reports an error: no JSON, an empty body, or a
member of the wrong type), `parseResponse` returns the structured error with
`Code = s`, `Message = StatusText s`, `StatusCode = s` and `Raw = b`, and leaves
the target alone, whatever the target and whatever the body says of `success`. -/
theorem parseResponse_unparsable_body {α : Type} (s : Int) (b : Bytes) (v : Option (Store α))
    (x : α) (hbad : (decodeEnvelope b).2 ≠ none) :
    (parseResponse ⟨s, NewReader b⟩ v x).err = some (GoError.api ⟨s, StatusText s, s, b⟩)
    ∧ (parseResponse ⟨s, NewReader b⟩ v x).v = x := by
  cases h : (decodeEnvelope b).2 with
  | none => exact absurd h hbad
  | some j =>
    rw [parseResponse_of_bad s b v x j h]
    exact ⟨rfl, rfl⟩

/-- Claim C2 at an HTML page and at an empty body with status 500, and at a
body that says success but has a string for `code`. -/
theorem parseResponse_unparsable_body_witness :
    (parseResponse ⟨500, NewReader htmlBody⟩ (none : Option (Store Unit)) ()).err
      = some (GoError.api ⟨500, str "Internal Server Error", 500, htmlBody⟩)
    ∧ (parseResponse ⟨500, NewReader []⟩ (none : Option (Store Unit)) ()).err
      = some (GoError.api ⟨500, str "Internal Server Error", 500, []⟩)
    ∧ (parseResponse ⟨200, NewReader mistypedBody⟩
        (some (storeStruct createOneTimePaymentResponseFields))
        (⟨[], []⟩ : CreateOneTimePaymentResponse)).err
      = some (GoError.api ⟨200, str "OK", 200, mistypedBody⟩) :=
  ⟨(parseResponse_unparsable_body 500 htmlBody none () (by decide)).1.trans (by decide),
   (parseResponse_unparsable_body 500 [] none () (by decide)).1.trans (by decide),
   (parseResponse_unparsable_body 200 mistypedBody
      (some (storeStruct createOneTimePaymentResponseFields)) ⟨[], []⟩
      (by decide)).1.trans (by decide)⟩

/-- Claim C3.  Whatever the HTTP client does, the form body that
`CreateOneTimePayment` sends decodes as a URL form without error, and each of
the ten optional fields left at its zero value has no key in it.  With all ten
at zero the body is exactly the five required pairs, so the form has exactly the
keys `payeeId`, `quoteAmount`, `quoteAssetId`, `settlementAssetId`, `orderId`. -/
theorem createOneTimePayment_omits_zero_optional_fields (Do : Transport) (c : Client)
    (req : CreateOneTimePaymentRequest) :
    (createOneTimePaymentForm Do c req).2 = none
    ∧ (req.StrictMode = false →
        Values.Has (createOneTimePaymentForm Do c req).1 (str "strictMode") = false)
    ∧ (req.PaymentAssetId = [] →
        Values.Has (createOneTimePaymentForm Do c req).1 (str "paymentAssetId") = false)
    ∧ (req.Remark = [] →
        Values.Has (createOneTimePaymentForm Do c req).1 (str "remark") = false)
    ∧ (req.ExpireSeconds = 0 →
        Values.Has (createOneTimePaymentForm Do c req).1 (str "expireSeconds") = false)
    ∧ (req.TraceId = [] →
        Values.Has (createOneTimePaymentForm Do c req).1 (str "traceId") = false)
    ∧ (req.SettlementMemo = [] →
        Values.Has (createOneTimePaymentForm Do c req).1 (str "settlementMemo") = false)
    ∧ (req.ReturnTo = [] →
        Values.Has (createOneTimePaymentForm Do c req).1 (str "returnTo") = false)
    ∧ (req.FailedReturnTo = [] →
        Values.Has (createOneTimePaymentForm Do c req).1 (str "failedReturnTo") = false)
    ∧ (req.CallbackUrl = [] →
        Values.Has (createOneTimePaymentForm Do c req).1 (str "callbackUrl") = false)
    ∧ (req.ExpiredTimestamp = 0 →
        Values.Has (createOneTimePaymentForm Do c req).1 (str "expiredTimestamp") = false)
    ∧ (req.StrictMode = false → req.PaymentAssetId = [] → req.Remark = [] →
        req.ExpireSeconds = 0 → req.TraceId = [] → req.SettlementMemo = [] →
        req.ReturnTo = [] → req.FailedReturnTo = [] → req.CallbackUrl = [] →
        req.ExpiredTimestamp = 0 →
        (CreateOneTimePayment Do c req).sent.Body
          = str "orderId=" ++ QueryEscape req.OrderId
            ++ str "&payeeId=" ++ QueryEscape req.PayeeId
            ++ str "&quoteAmount=" ++ QueryEscape req.QuoteAmount
            ++ str "&quoteAssetId=" ++ QueryEscape req.QuoteAssetId
            ++ str "&settlementAssetId=" ++ QueryEscape req.SettlementAssetId
        ∧ ∀ k : Bytes, Values.Has (createOneTimePaymentForm Do c req).1 k = true ↔
            k ∈ [str "payeeId", str "quoteAmount", str "quoteAssetId",
              str "settlementAssetId", str "orderId"]) := by
  refine ⟨createOneTimePaymentForm_err Do c req, ?_, ?_, ?_, ?_, ?_, ?_, ?_, ?_, ?_, ?_, ?_⟩
  · intro h
    simp [Values.Has, find_createOneTimePaymentForm, find_createOneTimePaymentValues, h,
      str_payeeId, str_quoteAmount, str_quoteAssetId, str_settlementAssetId,
      str_orderId, str_strictMode, str_paymentAssetId, str_remark, str_expireSeconds, str_traceId,
      str_settlementMemo, str_returnTo, str_failedReturnTo, str_callbackUrl, str_expiredTimestamp]
  · intro h
    simp [Values.Has, find_createOneTimePaymentForm, find_createOneTimePaymentValues, h,
      str_payeeId, str_quoteAmount, str_quoteAssetId, str_settlementAssetId,
      str_orderId, str_strictMode, str_paymentAssetId, str_remark, str_expireSeconds, str_traceId,
      str_settlementMemo, str_returnTo, str_failedReturnTo, str_callbackUrl, str_expiredTimestamp]
  · intro h
    simp [Values.Has, find_createOneTimePaymentForm, find_createOneTimePaymentValues, h,
      str_payeeId, str_quoteAmount, str_quoteAssetId, str_settlementAssetId,
      str_orderId, str_strictMode, str_paymentAssetId, str_remark, str_expireSeconds, str_traceId,
      str_settlementMemo, str_returnTo, str_failedReturnTo, str_callbackUrl, str_expiredTimestamp]
  · intro h
    simp [Values.Has, find_createOneTimePaymentForm, find_createOneTimePaymentValues, h,
      str_payeeId, str_quoteAmount, str_quoteAssetId, str_settlementAssetId,
      str_orderId, str_strictMode, str_paymentAssetId, str_remark, str_expireSeconds, str_traceId,
      str_settlementMemo, str_returnTo, str_failedReturnTo, str_callbackUrl, str_expiredTimestamp]
  · intro h
    simp [Values.Has, find_createOneTimePaymentForm, find_createOneTimePaymentValues, h,
      str_payeeId, str_quoteAmount, str_quoteAssetId, str_settlementAssetId,
      str_orderId, str_strictMode, str_paymentAssetId, str_remark, str_expireSeconds, str_traceId,
      str_settlementMemo, str_returnTo, str_failedReturnTo, str_callbackUrl, str_expiredTimestamp]
  · intro h
    simp [Values.Has, find_createOneTimePaymentForm, find_createOneTimePaymentValues, h,
      str_payeeId, str_quoteAmount, str_quoteAssetId, str_settlementAssetId,
      str_orderId, str_strictMode, str_paymentAssetId, str_remark, str_expireSeconds, str_traceId,
      str_settlementMemo, str_returnTo, str_failedReturnTo, str_callbackUrl, str_expiredTimestamp]
  · intro h
    simp [Values.Has, find_createOneTimePaymentForm, find_createOneTimePaymentValues, h,
      str_payeeId, str_quoteAmount, str_quoteAssetId, str_settlementAssetId,
      str_orderId, str_strictMode, str_paymentAssetId, str_remark, str_expireSeconds, str_traceId,
      str_settlementMemo, str_returnTo, str_failedReturnTo, str_callbackUrl, str_expiredTimestamp]
  · intro h
    simp [Values.Has, find_createOneTimePaymentForm, find_createOneTimePaymentValues, h,
      str_payeeId, str_quoteAmount, str_quoteAssetId, str_settlementAssetId,
      str_orderId, str_strictMode, str_paymentAssetId, str_remark, str_expireSeconds, str_traceId,
      str_settlementMemo, str_returnTo, str_failedReturnTo, str_callbackUrl, str_expiredTimestamp]
  · intro h
    simp [Values.Has, find_createOneTimePaymentForm, find_createOneTimePaymentValues, h,
      str_payeeId, str_quoteAmount, str_quoteAssetId, str_settlementAssetId,
      str_orderId, str_strictMode, str_paymentAssetId, str_remark, str_expireSeconds, str_traceId,
      str_settlementMemo, str_returnTo, str_failedReturnTo, str_callbackUrl, str_expiredTimestamp]
  · intro h
    simp [Values.Has, find_createOneTimePaymentForm, find_createOneTimePaymentValues, h,
      str_payeeId, str_quoteAmount, str_quoteAssetId, str_settlementAssetId,
      str_orderId, str_strictMode, str_paymentAssetId, str_remark, str_expireSeconds, str_traceId,
      str_settlementMemo, str_returnTo, str_failedReturnTo, str_callbackUrl, str_expiredTimestamp]
  · intro h1 h2 h3 h4 h5 h6 h7 h8 h9 h10
    refine ⟨?_, ?_⟩
    · rw [CreateOneTimePayment_sent]
      exact required_only_body req h1 h2 h3 h4 h5 h6 h7 h8 h9 h10
    · intro k
      simp only [Values.Has, find_createOneTimePaymentForm, find_createOneTimePaymentValues,
        h1, h2, h3, h4, h5, h6, h7, h8, h9, h10]
      simp only [ne_eq, not_true_eq_false, and_false, if_false, Bool.false_eq_true,
        List.mem_cons, List.mem_singleton, List.not_mem_nil, or_false]
      split_ifs with a1 a2 a3 a4 a5
      · subst a1; simp
      · subst a2; simp
      · subst a3; simp
      · subst a4; simp
      · subst a5; simp
      · simp only [Option.isSome_none, Bool.false_eq_true, false_iff, not_or]
        exact ⟨Ne.symm a1, Ne.symm a2, Ne.symm a3, Ne.symm a4, Ne.symm a5⟩

/-- Claim C3 at a request with only the required fields: the body sent. -/
theorem createOneTimePayment_omits_zero_optional_fields_witness :
    (CreateOneTimePayment offline New requiredOnlyRequest).sent.Body
      = str "orderId=order-1&payeeId=payee+1&quoteAmount=1.5&quoteAssetId=usd&settlementAssetId=btc" :=
  ((createOneTimePayment_omits_zero_optional_fields offline New
      requiredOnlyRequest).2.2.2.2.2.2.2.2.2.2.2
    rfl rfl rfl rfl rfl rfl rfl rfl rfl rfl).1.trans (by decide)

/-- Claim C4.  Whatever the HTTP client does, the form body that
`CreateOneTimePayment` sends decodes as a URL form without error, and each
optional field set to a non-zero value is in the decoded form under its key
exactly once with exactly that value: a string as it is, `ExpireSeconds` and
`ExpiredTimestamp` in signed base 10, `StrictMode` as `true`.  The signed
base-10 rendering of a 64-bit integer reads back as that integer. -/
theorem createOneTimePayment_sends_set_optional_fields (Do : Transport) (c : Client)
    (req : CreateOneTimePaymentRequest) :
    (createOneTimePaymentForm Do c req).2 = none
    ∧ (req.StrictMode = true →
        Values.vals (createOneTimePaymentForm Do c req).1 (str "strictMode") = [str "true"])
    ∧ (req.PaymentAssetId ≠ [] →
        Values.vals (createOneTimePaymentForm Do c req).1 (str "paymentAssetId") = [req.PaymentAssetId])
    ∧ (req.Remark ≠ [] →
        Values.vals (createOneTimePaymentForm Do c req).1 (str "remark") = [req.Remark])
    ∧ (req.ExpireSeconds ≠ 0 →
        Values.vals (createOneTimePaymentForm Do c req).1 (str "expireSeconds") = [FormatInt req.ExpireSeconds])
    ∧ (req.TraceId ≠ [] →
        Values.vals (createOneTimePaymentForm Do c req).1 (str "traceId") = [req.TraceId])
    ∧ (req.SettlementMemo ≠ [] →
        Values.vals (createOneTimePaymentForm Do c req).1 (str "settlementMemo") = [req.SettlementMemo])
    ∧ (req.ReturnTo ≠ [] →
        Values.vals (createOneTimePaymentForm Do c req).1 (str "returnTo") = [req.ReturnTo])
    ∧ (req.FailedReturnTo ≠ [] →
        Values.vals (createOneTimePaymentForm Do c req).1 (str "failedReturnTo") = [req.FailedReturnTo])
    ∧ (req.CallbackUrl ≠ [] →
        Values.vals (createOneTimePaymentForm Do c req).1 (str "callbackUrl") = [req.CallbackUrl])
    ∧ (req.ExpiredTimestamp ≠ 0 →
        Values.vals (createOneTimePaymentForm Do c req).1 (str "expiredTimestamp") = [FormatInt req.ExpiredTimestamp])
    ∧ (∀ i : Int, -(2 : Int) ^ 63 ≤ i → i < (2 : Int) ^ 63 →
        parseInt64 (FormatInt i) = some i) := by
  refine ⟨createOneTimePaymentForm_err Do c req, ?_, ?_, ?_, ?_, ?_, ?_, ?_, ?_, ?_, ?_,
    parseInt64_FormatInt⟩
  · intro h
    simp [Values.vals, find_createOneTimePaymentForm, find_createOneTimePaymentValues, h,
      str_payeeId, str_quoteAmount, str_quoteAssetId, str_settlementAssetId,
      str_orderId, str_strictMode, str_paymentAssetId, str_remark, str_expireSeconds, str_traceId,
      str_settlementMemo, str_returnTo, str_failedReturnTo, str_callbackUrl, str_expiredTimestamp]
  · intro h
    simp [Values.vals, find_createOneTimePaymentForm, find_createOneTimePaymentValues, h,
      str_payeeId, str_quoteAmount, str_quoteAssetId, str_settlementAssetId,
      str_orderId, str_strictMode, str_paymentAssetId, str_remark, str_expireSeconds, str_traceId,
      str_settlementMemo, str_returnTo, str_failedReturnTo, str_callbackUrl, str_expiredTimestamp]
  · intro h
    simp [Values.vals, find_createOneTimePaymentForm, find_createOneTimePaymentValues, h,
      str_payeeId, str_quoteAmount, str_quoteAssetId, str_settlementAssetId,
      str_orderId, str_strictMode, str_paymentAssetId, str_remark, str_expireSeconds, str_traceId,
      str_settlementMemo, str_returnTo, str_failedReturnTo, str_callbackUrl, str_expiredTimestamp]
  · intro h
    simp [Values.vals, find_createOneTimePaymentForm, find_createOneTimePaymentValues, h,
      str_payeeId, str_quoteAmount, str_quoteAssetId, str_settlementAssetId,
      str_orderId, str_strictMode, str_paymentAssetId, str_remark, str_expireSeconds, str_traceId,
      str_settlementMemo, str_returnTo, str_failedReturnTo, str_callbackUrl, str_expiredTimestamp]
  · intro h
    simp [Values.vals, find_createOneTimePaymentForm, find_createOneTimePaymentValues, h,
      str_payeeId, str_quoteAmount, str_quoteAssetId, str_settlementAssetId,
      str_orderId, str_strictMode, str_paymentAssetId, str_remark, str_expireSeconds, str_traceId,
      str_settlementMemo, str_returnTo, str_failedReturnTo, str_callbackUrl, str_expiredTimestamp]
  · intro h
    simp [Values.vals, find_createOneTimePaymentForm, find_createOneTimePaymentValues, h,
      str_payeeId, str_quoteAmount, str_quoteAssetId, str_settlementAssetId,
      str_orderId, str_strictMode, str_paymentAssetId, str_remark, str_expireSeconds, str_traceId,
      str_settlementMemo, str_returnTo, str_failedReturnTo, str_callbackUrl, str_expiredTimestamp]
  · intro h
    simp [Values.vals, find_createOneTimePaymentForm, find_createOneTimePaymentValues, h,
      str_payeeId, str_quoteAmount, str_quoteAssetId, str_settlementAssetId,
      str_orderId, str_strictMode, str_paymentAssetId, str_remark, str_expireSeconds, str_traceId,
      str_settlementMemo, str_returnTo, str_failedReturnTo, str_callbackUrl, str_expiredTimestamp]
  · intro h
    simp [Values.vals, find_createOneTimePaymentForm, find_createOneTimePaymentValues, h,
      str_payeeId, str_quoteAmount, str_quoteAssetId, str_settlementAssetId,
      str_orderId, str_strictMode, str_paymentAssetId, str_remark, str_expireSeconds, str_traceId,
      str_settlementMemo, str_returnTo, str_failedReturnTo, str_callbackUrl, str_expiredTimestamp]
  · intro h
    simp [Values.vals, find_createOneTimePaymentForm, find_createOneTimePaymentValues, h,
      str_payeeId, str_quoteAmount, str_quoteAssetId, str_settlementAssetId,
      str_orderId, str_strictMode, str_paymentAssetId, str_remark, str_expireSeconds, str_traceId,
      str_settlementMemo, str_returnTo, str_failedReturnTo, str_callbackUrl, str_expiredTimestamp]
  · intro h
    simp [Values.vals, find_createOneTimePaymentForm, find_createOneTimePaymentValues, h,
      str_payeeId, str_quoteAmount, str_quoteAssetId, str_settlementAssetId,
      str_orderId, str_strictMode, str_paymentAssetId, str_remark, str_expireSeconds, str_traceId,
      str_settlementMemo, str_returnTo, str_failedReturnTo, str_callbackUrl, str_expiredTimestamp]

/-- Claim C4 at a request with every optional field set: a negative
`ExpireSeconds`, a remark with reserved characters, and the strict mode. -/
theorem createOneTimePayment_sends_set_optional_fields_witness :
    Values.vals (createOneTimePaymentForm offline New fullRequest).1 (str "expireSeconds")
      = [str "-5"]
    ∧ Values.vals (createOneTimePaymentForm offline New fullRequest).1 (str "remark")
      = [str "a&b=c d"]
    ∧ Values.vals (createOneTimePaymentForm offline New fullRequest).1 (str "strictMode")
      = [str "true"] :=
  ⟨((createOneTimePayment_sends_set_optional_fields offline New fullRequest).2.2.2.2.1
      (by decide)).trans (by decide),
   ((createOneTimePayment_sends_set_optional_fields offline New fullRequest).2.2.2.1
      (by decide)).trans (by decide),
   (createOneTimePayment_sends_set_optional_fields offline New fullRequest).2.1 rfl⟩

/-- Claim C5.  The query of the request that `ListSettlementAssets` sends decodes
without error to exactly this: `payeeId` with the payee id iff the request is
not nil and its payee id is not empty; `quoteAssetId` and `quoteAmount`, both
with their values, iff the request is not nil, its quote asset id is not empty
and its quote amount is strictly positive, and neither of them otherwise; no
other key.  A nil request gives the empty query string. -/
theorem listSettlementAssets_query_keys (Do : Transport) (store : Store (List (Option Asset)))
    (c : Client) (req : Option ListSettlementAssetsRequest) :
    (ListSettlementAssets Do store c req).sent =
      { Method := str "GET",
        URL := c.host ++ str "/v1/setting/settlement_assets" ++ str "?"
          ++ listSettlementAssetsQuery req,
        Body := [], ContentType := [] }
    ∧ (ParseQuery (listSettlementAssetsQuery req)).2 = none
    ∧ (req = none → listSettlementAssetsQuery req = []
        ∧ ∀ k : Bytes, Values.find (ParseQuery (listSettlementAssetsQuery req)).1 k = none)
    ∧ (∀ r : ListSettlementAssetsRequest, req = some r →
        Values.find (ParseQuery (listSettlementAssetsQuery req)).1 (str "payeeId")
          = (if r.PayeeID ≠ [] then some [r.PayeeID] else none)
        ∧ Values.find (ParseQuery (listSettlementAssetsQuery req)).1 (str "quoteAssetId")
          = (if r.QuoteAssetID ≠ [] ∧ 0 < r.QuoteAmount.value then some [r.QuoteAssetID]
              else none)
        ∧ Values.find (ParseQuery (listSettlementAssetsQuery req)).1 (str "quoteAmount")
          = (if r.QuoteAssetID ≠ [] ∧ 0 < r.QuoteAmount.value then some [r.QuoteAmount.String]
              else none)
        ∧ (∀ k : Bytes, k ≠ str "payeeId" → k ≠ str "quoteAssetId" → k ≠ str "quoteAmount" →
            Values.find (ParseQuery (listSettlementAssetsQuery req)).1 k = none)) := by
  have hf : ∀ k, Values.find (ParseQuery (listSettlementAssetsQuery req)).1 k
      = Values.find (listSettlementAssetsValues req) k :=
    fun k => find_ParseQuery_Encode _ (WF_listSettlementAssetsValues req) k
  refine ⟨ListSettlementAssets_sent Do store c req, ?_, ?_, ?_⟩
  · simp only [listSettlementAssetsQuery, ParseQuery_Encode]
  · intro h
    subst h
    refine ⟨by decide, fun k => ?_⟩
    rw [hf]
    rfl
  · intro r h
    subst h
    refine ⟨?_, ?_, ?_, ?_⟩
    · rw [hf, find_listSettlementAssetsValues]
      simp [str_payeeId, str_quoteAssetId, str_quoteAmount]
    · rw [hf, find_listSettlementAssetsValues]
      simp [str_payeeId, str_quoteAssetId, str_quoteAmount]
    · rw [hf, find_listSettlementAssetsValues]
      simp [str_payeeId, str_quoteAssetId, str_quoteAmount]
    · intro k h1 h2 h3
      rw [hf, find_listSettlementAssetsValues]
      simp [Ne.symm h1, Ne.symm h2, Ne.symm h3]

/-- Claim C5 at a nil request, at a filter with a quote asset and the amount
zero, and at a filter with a quote asset and the amount 12.50. -/
theorem listSettlementAssets_query_keys_witness :
    (ListSettlementAssets offline (fun _ x => (x, none)) New none).sent.URL
      = str "https://api.mixpay.me/v1/setting/settlement_assets?"
    ∧ listSettlementAssetsQuery (some zeroAmountFilter) = str "payeeId=payee+1"
    ∧ Values.find (ParseQuery (listSettlementAssetsQuery (some zeroAmountFilter))).1
        (str "quoteAssetId") = none
    ∧ Values.find (ParseQuery (listSettlementAssetsQuery (some zeroAmountFilter))).1
        (str "quoteAmount") = none
    ∧ Values.find (ParseQuery (listSettlementAssetsQuery (some positiveAmountFilter))).1
        (str "quoteAmount") = some [str "12.5"] :=
  ⟨(congrArg Request.URL
      (listSettlementAssets_query_keys offline (fun _ x => (x, none)) New none).1).trans
      (by decide),
   by decide,
   (((listSettlementAssets_query_keys offline (fun _ x => (x, none)) New
      (some zeroAmountFilter)).2.2.2 zeroAmountFilter rfl).2.1).trans (by decide),
   (((listSettlementAssets_query_keys offline (fun _ x => (x, none)) New
      (some zeroAmountFilter)).2.2.2 zeroAmountFilter rfl).2.2.1).trans (by decide),
   (((listSettlementAssets_query_keys offline (fun _ x => (x, none)) New
      (some positiveAmountFilter)).2.2.2 positiveAmountFilter rfl).2.2.1).trans (by decide)⟩

/-- Claim C6.  Whenever `GetPaymentResult` returns without error, the HTTP
client had answered with a response whose body was read without error, a result
is returned, and its `Raw` is that whole body, byte for byte.  This rests on
`parseResponse`: after reading a body without error it leaves the response with
a fresh reader over the same bytes, from which all of them are read again. -/
theorem getPaymentResult_raw_is_body (Do : Transport) (store : Store GetPaymentResultResponse)
    (c : Client) (req : GetPaymentResultRequest)
    (herr : (GetPaymentResult Do store c req).err = none) :
    (∃ (resp : Response) (res : GetPaymentResultResponse),
      Do (GetPaymentResult Do store c req).sent = Except.ok resp
      ∧ resp.Body.err = none
      ∧ (GetPaymentResult Do store c req).result = some res
      ∧ res.Raw = resp.Body.data)
    ∧ (∀ (α : Type) (r : Response) (v : Option (Store α)) (x : α), r.Body.err = none →
        (parseResponse r v x).r.Body = NewReader r.Body.data
        ∧ (ReadAll (parseResponse r v x).r.Body).1 = r.Body.data) := by
  refine ⟨?_, ?_⟩
  · rw [GetPaymentResult_sent]
    unfold GetPaymentResult at herr ⊢
    simp only [getPaymentResultQuery] at herr ⊢
    split at herr
    · simp at herr
    · rename_i resp hDo
      rw [hDo]
      cases hbe : resp.Body.err with
      | some e =>
        have := parseResponse_read_error resp (some store) GetPaymentResultResponse.zero e hbe
        simp [this] at herr
      | none =>
        have hb := parseResponse_body resp (some store) GetPaymentResultResponse.zero hbe
        cases hpe : (parseResponse resp (some store) GetPaymentResultResponse.zero).err with
        | some e => simp [hpe] at herr
        | none =>
          simp only [hpe]
          refine ⟨resp, _, rfl, hbe, rfl, ?_⟩
          simp [hb, ReadAll, NewReader]
  · intro α r v x h
    rw [parseResponse_body r v x h]
    exact ⟨rfl, rfl⟩

/-- Claim C6 at a server that answers with a success envelope: the result
carries the whole envelope text. -/
theorem getPaymentResult_raw_is_body_witness :
    ∃ (resp : Response) (res : GetPaymentResultResponse),
      answering paymentResultBody
        (GetPaymentResult (answering paymentResultBody)
          (storeStruct getPaymentResultResponseFields) New ⟨str "t1", [], []⟩).sent
        = Except.ok resp
      ∧ resp.Body.err = none
      ∧ (GetPaymentResult (answering paymentResultBody)
          (storeStruct getPaymentResultResponseFields) New ⟨str "t1", [], []⟩).result = some res
      ∧ res.Raw = resp.Body.data :=
  (getPaymentResult_raw_is_body (answering paymentResultBody)
    (storeStruct getPaymentResultResponseFields) New ⟨str "t1", [], []⟩ (by decide)).1

/-- Claim C7.  For all strings `c` and `u` and every status `s`: for every body
that parses as the envelope without error, with `success` true and with the
data object of the members `code: c` and `codeUrl: u`, `parseResponse` with a
`CreateOneTimePaymentResponse` target returns no error and the result with
`Code = c` and `CodeURL = u`, whose `PaymentLink` is `https://mixpay.me/code/`
followed by `c`, and so does `CreateOneTimePayment` when the HTTP client answers
with that body.  The envelope text with `c` and `u` of plain characters is such
a body.  `PaymentLink` depends on `Code` only. -/
theorem createPayment_envelope_roundtrip (s : Int) (c u : Bytes) :
    (∀ b : Bytes, (decodeEnvelope b).2 = none → (decodeEnvelope b).1.Success = true →
      (decodeEnvelope b).1.Data
        = some (JSON.obj [(str "code", JSON.str c), (str "codeUrl", JSON.str u)]) →
      (parseResponse ⟨s, NewReader b⟩ (some (storeStruct createOneTimePaymentResponseFields))
          (⟨[], []⟩ : CreateOneTimePaymentResponse)).err = none
      ∧ (parseResponse ⟨s, NewReader b⟩ (some (storeStruct createOneTimePaymentResponseFields))
          (⟨[], []⟩ : CreateOneTimePaymentResponse)).v = ⟨c, u⟩
      ∧ (parseResponse ⟨s, NewReader b⟩ (some (storeStruct createOneTimePaymentResponseFields))
          (⟨[], []⟩ : CreateOneTimePaymentResponse)).v.PaymentLink
          = str "https://mixpay.me/code/" ++ c
      ∧ (∀ (Do : Transport) (client : Client) (req : CreateOneTimePaymentRequest),
          Do (CreateOneTimePayment Do client req).sent = Except.ok ⟨s, NewReader b⟩ →
          (CreateOneTimePayment Do client req).result = some ⟨c, u⟩
          ∧ (CreateOneTimePayment Do client req).err = none))
    ∧ (c.all isPlain = true → u.all isPlain = true →
        (decodeEnvelope (paymentEnvelope c u)).2 = none
        ∧ (decodeEnvelope (paymentEnvelope c u)).1.Success = true
        ∧ (decodeEnvelope (paymentEnvelope c u)).1.Data
            = some (JSON.obj [(str "code", JSON.str c), (str "codeUrl", JSON.str u)])
        ∧ (parseResponse ⟨s, NewReader (paymentEnvelope c u)⟩
            (some (storeStruct createOneTimePaymentResponseFields))
            (⟨[], []⟩ : CreateOneTimePaymentResponse)).err = none
        ∧ (parseResponse ⟨s, NewReader (paymentEnvelope c u)⟩
            (some (storeStruct createOneTimePaymentResponseFields))
            (⟨[], []⟩ : CreateOneTimePaymentResponse)).v = ⟨c, u⟩)
    ∧ (∀ r1 r2 : CreateOneTimePaymentResponse, r1.Code = r2.Code →
        r1.PaymentLink = r2.PaymentLink) := by
  have key : ∀ b : Bytes, (decodeEnvelope b).2 = none → (decodeEnvelope b).1.Success = true →
      (decodeEnvelope b).1.Data
        = some (JSON.obj [(str "code", JSON.str c), (str "codeUrl", JSON.str u)]) →
      parseResponse ⟨s, NewReader b⟩ (some (storeStruct createOneTimePaymentResponseFields))
          (⟨[], []⟩ : CreateOneTimePaymentResponse)
        = { r := ⟨s, NewReader b⟩, v := ⟨c, u⟩, err := none } := by
    intro b hparse hsucc hdata
    have hp := parseResponse_of_success s b (storeStruct createOneTimePaymentResponseFields)
      (⟨[], []⟩ : CreateOneTimePaymentResponse) hparse hsucc
    rw [hdata] at hp
    simpa only [UnmarshalRaw, storeStruct_code_codeUrl] using hp
  refine ⟨?_, ?_, ?_⟩
  · intro b hparse hsucc hdata
    have hp := key b hparse hsucc hdata
    refine ⟨by rw [hp], by rw [hp], by rw [hp]; rfl, ?_⟩
    intro Do client req hDo
    rw [CreateOneTimePayment_sent] at hDo
    unfold CreateOneTimePayment
    simp [hDo, hp]
  · intro hc hu
    obtain ⟨h1, h2, h3⟩ := decodeEnvelope_of_payment_object (paymentEnvelope c u) _
      (parseJSON_paymentEnvelope c u hc hu)
    have hp := key (paymentEnvelope c u) h1 h2 h3
    exact ⟨h1, h2, h3, by rw [hp], by rw [hp]⟩
  · intro r1 r2 h
    simp [CreateOneTimePaymentResponse.PaymentLink, h]

/-- Claim C7 at `c = abc` and `u = https://x`. -/
theorem createPayment_envelope_roundtrip_witness :
    paymentBody = paymentEnvelope (str "abc") (str "https://x")
    ∧ (parseResponse ⟨200, NewReader paymentBody⟩
        (some (storeStruct createOneTimePaymentResponseFields))
        (⟨[], []⟩ : CreateOneTimePaymentResponse)).v = ⟨str "abc", str "https://x"⟩
    ∧ (parseResponse ⟨200, NewReader paymentBody⟩
        (some (storeStruct createOneTimePaymentResponseFields))
        (⟨[], []⟩ : CreateOneTimePaymentResponse)).v.PaymentLink
      = str "https://mixpay.me/code/abc"
    ∧ (CreateOneTimePayment (answering paymentBody) New requiredOnlyRequest).result
      = some ⟨str "abc", str "https://x"⟩ :=
  ⟨by decide,
   ((createPayment_envelope_roundtrip 200 (str "abc") (str "https://x")).1 paymentBody
      (by decide) (by decide) (by rfl)).2.1,
   ((createPayment_envelope_roundtrip 200 (str "abc") (str "https://x")).1 paymentBody
      (by decide) (by decide) (by rfl)).2.2.1.trans (by decide),
   (((createPayment_envelope_roundtrip 200 (str "abc") (str "https://x")).1 paymentBody
      (by decide) (by decide) (by rfl)).2.2.2 (answering paymentBody) New
      requiredOnlyRequest rfl).1⟩

/-- Claim C8.  The request that `GetPaymentResult` sends is a `GET` of
`/v1/payments_result?` followed by a query that decodes without error to: each
of `traceId`, `orderId`, `payeeId` with exactly the value of its field iff that
field is not empty, and no other key.  Nothing is validated: with all three
fields empty the query string is empty and the request is sent all the same,
and whatever error the HTTP client answers is the error returned. -/
theorem getPaymentResult_query_keys (Do : Transport) (store : Store GetPaymentResultResponse)
    (c : Client) (req : GetPaymentResultRequest) :
    (GetPaymentResult Do store c req).sent =
      { Method := str "GET",
        URL := c.host ++ str "/v1/payments_result" ++ str "?" ++ getPaymentResultQuery req,
        Body := [], ContentType := [] }
    ∧ (ParseQuery (getPaymentResultQuery req)).2 = none
    ∧ Values.find (ParseQuery (getPaymentResultQuery req)).1 (str "traceId")
        = (if req.TraceId ≠ [] then some [req.TraceId] else none)
    ∧ Values.find (ParseQuery (getPaymentResultQuery req)).1 (str "orderId")
        = (if req.OrderId ≠ [] then some [req.OrderId] else none)
    ∧ Values.find (ParseQuery (getPaymentResultQuery req)).1 (str "payeeId")
        = (if req.PayeeId ≠ [] then some [req.PayeeId] else none)
    ∧ (∀ k : Bytes, k ≠ str "traceId" → k ≠ str "orderId" → k ≠ str "payeeId" →
        Values.find (ParseQuery (getPaymentResultQuery req)).1 k = none)
    ∧ (req.TraceId = [] → req.OrderId = [] → req.PayeeId = [] →
        getPaymentResultQuery req = []
        ∧ (GetPaymentResult Do store c req).sent.URL = c.host ++ str "/v1/payments_result?")
    ∧ (∀ e : TransportError, Do (GetPaymentResult Do store c req).sent = Except.error e →
        (GetPaymentResult Do store c req).err = some (GoError.transport e)) := by
  have hf : ∀ k, Values.find (ParseQuery (getPaymentResultQuery req)).1 k
      = Values.find (getPaymentResultValues req) k :=
    fun k => find_ParseQuery_Encode _ (WF_getPaymentResultValues req) k
  refine ⟨GetPaymentResult_sent Do store c req, ?_, ?_, ?_, ?_, ?_, ?_, ?_⟩
  · simp only [getPaymentResultQuery, ParseQuery_Encode]
  · rw [hf, find_getPaymentResultValues]
    simp [str_payeeId, str_orderId, str_traceId]
  · rw [hf, find_getPaymentResultValues]
    simp [str_payeeId, str_orderId, str_traceId]
  · rw [hf, find_getPaymentResultValues]
    simp [str_payeeId, str_orderId, str_traceId]
  · intro k h1 h2 h3
    rw [hf, find_getPaymentResultValues]
    simp [Ne.symm h1, Ne.symm h2, Ne.symm h3]
  · intro h1 h2 h3
    have hq : getPaymentResultQuery req = [] := by
      simp [getPaymentResultQuery, getPaymentResultValues, Values.SetIf, h1, h2, h3]
      decide
    refine ⟨hq, ?_⟩
    rw [GetPaymentResult_sent, hq]
    show c.host ++ str "/v1/payments_result" ++ str "?" ++ []
      = c.host ++ str "/v1/payments_result?"
    rw [List.append_nil, List.append_assoc]
    congr 1
  · intro e he
    exact (GetPaymentResult_transport_error Do store c req e he).1

/-- Claim C8 at the request with all three keys empty, without a network: the
URL sent, and the error returned is that of the HTTP client. -/
theorem getPaymentResult_query_keys_witness :
    (GetPaymentResult offline (storeStruct getPaymentResultResponseFields) New
        ⟨[], [], []⟩).sent.URL = str "https://api.mixpay.me/v1/payments_result?"
    ∧ (GetPaymentResult offline (storeStruct getPaymentResultResponseFields) New
        ⟨[], [], []⟩).err = some (GoError.transport { msg := str "connection refused" }) :=
  ⟨(((getPaymentResult_query_keys offline (storeStruct getPaymentResultResponseFields) New
      ⟨[], [], []⟩).2.2.2.2.2.2.1 rfl rfl rfl).2).trans (by decide),
   (getPaymentResult_query_keys offline (storeStruct getPaymentResultResponseFields) New
      ⟨[], [], []⟩).2.2.2.2.2.2.2 _ rfl⟩

/-- Claim C9 fails as stated: a body that says success without a `data` member,
or with a `data` that is not an object, makes `parseResponse` with a
`CreateOneTimePaymentResponse` target return the error of the JSON decoder,
which is not the structured error. -/
theorem parseResponse_single_error_kind_counterexample :
    (parseResponse ⟨200, NewReader noDataBody⟩
        (some (storeStruct createOneTimePaymentResponseFields))
        (⟨[], []⟩ : CreateOneTimePaymentResponse)).err
      = some (GoError.json JsonError.SyntaxError)
    ∧ (parseResponse ⟨200, NewReader numberDataBody⟩
        (some (storeStruct createOneTimePaymentResponseFields))
        (⟨[], []⟩ : CreateOneTimePaymentResponse)).err
      = some (GoError.json JsonError.UnmarshalTypeError)
    ∧ ¬ ∃ e : Error,
        (parseResponse ⟨200, NewReader noDataBody⟩
          (some (storeStruct createOneTimePaymentResponseFields))
          (⟨[], []⟩ : CreateOneTimePaymentResponse)).err = some (GoError.api e) := by
  have h1 : (parseResponse ⟨200, NewReader noDataBody⟩
        (some (storeStruct createOneTimePaymentResponseFields))
        (⟨[], []⟩ : CreateOneTimePaymentResponse)).err
      = some (GoError.json JsonError.SyntaxError) := by decide
  refine ⟨h1, by decide, ?_⟩
  rintro ⟨e, he⟩
  rw [h1] at he
  cases he

/-- Claim C9, amended.  For every response whose body is read without error,
every error that `parseResponse` returns is either the structured error, with
the status code and the body of the response (the body did not parse as the
envelope, or the envelope says failure), or the error of the JSON decoder as it
is, and this only when the envelope parses with `success` true, a target is
given and the envelope's data does not decode into it. -/
theorem parseResponse_error_kinds {α : Type} (s : Int) (b : Bytes) (v : Option (Store α)) (x : α)
    (err : GoError) (h : (parseResponse ⟨s, NewReader b⟩ v x).err = some err) :
    (∃ e : Error, err = GoError.api e ∧ e.StatusCode = s ∧ e.Raw = b
      ∧ ((decodeEnvelope b).2 ≠ none ∨ (decodeEnvelope b).1.Success = false))
    ∨ (∃ (store : Store α) (j : JsonError), v = some store ∧ (decodeEnvelope b).2 = none
        ∧ (decodeEnvelope b).1.Success = true
        ∧ (UnmarshalRaw store (decodeEnvelope b).1.Data x).2 = some j
        ∧ err = GoError.json j) := by
  cases h2 : (decodeEnvelope b).2 with
  | some j =>
    rw [parseResponse_of_bad s b v x j h2] at h
    simp only [Option.some.injEq] at h
    subst h
    exact Or.inl ⟨_, rfl, rfl, rfl, Or.inl (by simp)⟩
  | none =>
    cases hs : (decodeEnvelope b).1.Success with
    | false =>
      rw [parseResponse_of_fail s b v x h2 hs] at h
      simp only [Option.some.injEq] at h
      subst h
      exact Or.inl ⟨_, rfl, rfl, rfl, Or.inr rfl⟩
    | true =>
      cases v with
      | none =>
        rw [parseResponse_of_success_nil s b x h2 hs] at h
        simp at h
      | some store =>
        rw [parseResponse_of_success s b store x h2 hs] at h
        cases h3 : (UnmarshalRaw store (decodeEnvelope b).1.Data x).2 with
        | none => simp [h3] at h
        | some j =>
          simp only [h3, Option.map_some', Option.some.injEq] at h
          subst h
          exact Or.inr ⟨store, j, rfl, rfl, rfl, h3, rfl⟩

/-- Claim C9, amended, at the failure envelope (a structured error) and at the
success envelope without data (the decoder's error). -/
theorem parseResponse_error_kinds_witness :
    ((∃ e : Error, GoError.api ⟨42, str "bad request", 400, failureBody⟩ = GoError.api e
        ∧ e.StatusCode = 400 ∧ e.Raw = failureBody
        ∧ ((decodeEnvelope failureBody).2 ≠ none
          ∨ (decodeEnvelope failureBody).1.Success = false))
      ∨ (∃ (store : Store Unit) (j : JsonError), (none : Option (Store Unit)) = some store
          ∧ (decodeEnvelope failureBody).2 = none
          ∧ (decodeEnvelope failureBody).1.Success = true
          ∧ (UnmarshalRaw store (decodeEnvelope failureBody).1.Data ()).2 = some j
          ∧ GoError.api ⟨42, str "bad request", 400, failureBody⟩ = GoError.json j))
    ∧ ((∃ e : Error, GoError.json JsonError.SyntaxError = GoError.api e ∧ e.StatusCode = 200
        ∧ e.Raw = noDataBody
        ∧ ((decodeEnvelope noDataBody).2 ≠ none ∨ (decodeEnvelope noDataBody).1.Success = false))
      ∨ (∃ (store : Store CreateOneTimePaymentResponse) (j : JsonError),
          some (storeStruct createOneTimePaymentResponseFields) = some store
          ∧ (decodeEnvelope noDataBody).2 = none
          ∧ (decodeEnvelope noDataBody).1.Success = true
          ∧ (UnmarshalRaw store (decodeEnvelope noDataBody).1.Data
              (⟨[], []⟩ : CreateOneTimePaymentResponse)).2 = some j
          ∧ GoError.json JsonError.SyntaxError = GoError.json j)) :=
  ⟨parseResponse_error_kinds 400 failureBody none ()
      (GoError.api ⟨42, str "bad request", 400, failureBody⟩) (by decide),
   parseResponse_error_kinds 200 noDataBody
      (some (storeStruct createOneTimePaymentResponseFields)) ⟨[], []⟩
      (GoError.json JsonError.SyntaxError) (by decide)⟩

/-- Claim C10.  For every body that parses as the envelope without error and
every two status codes, `parseResponse` leaves the same value in the target,
returns an error for the one iff for the other, and the two errors differ at
most in the `StatusCode` of the structured error.  When the envelope says
success and its data decodes into the target, no error is returned and the
target holds the decoded data, whatever the status code. -/
theorem parseResponse_success_ignores_status {α : Type} (s1 s2 : Int) (b : Bytes)
    (v : Option (Store α)) (x : α) (hparse : (decodeEnvelope b).2 = none) :
    (parseResponse ⟨s1, NewReader b⟩ v x).v = (parseResponse ⟨s2, NewReader b⟩ v x).v
    ∧ ((parseResponse ⟨s1, NewReader b⟩ v x).err = none
        ↔ (parseResponse ⟨s2, NewReader b⟩ v x).err = none)
    ∧ (parseResponse ⟨s1, NewReader b⟩ v x).err.map (GoError.withStatusCode s2)
        = (parseResponse ⟨s2, NewReader b⟩ v x).err
    ∧ (∀ store : Store α, v = some store → (decodeEnvelope b).1.Success = true →
        (UnmarshalRaw store (decodeEnvelope b).1.Data x).2 = none →
        (parseResponse ⟨s1, NewReader b⟩ v x).err = none
        ∧ (parseResponse ⟨s1, NewReader b⟩ v x).v
            = (UnmarshalRaw store (decodeEnvelope b).1.Data x).1) := by
  cases hs : (decodeEnvelope b).1.Success with
  | false =>
    rw [parseResponse_of_fail s1 b v x hparse hs, parseResponse_of_fail s2 b v x hparse hs]
    refine ⟨rfl, by simp, rfl, ?_⟩
    intro store _ h
    cases h
  | true =>
    cases v with
    | none =>
      rw [parseResponse_of_success_nil s1 b x hparse hs,
        parseResponse_of_success_nil s2 b x hparse hs]
      refine ⟨rfl, Iff.rfl, rfl, ?_⟩
      intro store h
      cases h
    | some store =>
      rw [parseResponse_of_success s1 b store x hparse hs,
        parseResponse_of_success s2 b store x hparse hs]
      refine ⟨rfl, Iff.rfl, ?_, ?_⟩
      · cases (UnmarshalRaw store (decodeEnvelope b).1.Data x).2 <;> rfl
      · intro store2 h _ hd
        cases h
        exact ⟨by simp [hd], rfl⟩

/-- Claim C10 at a success envelope with status 500: a successful result, and
at the failure envelope with the statuses 400 and 500: the same error but for
the status code. -/
theorem parseResponse_success_ignores_status_witness :
    ((parseResponse ⟨500, NewReader paymentBody⟩
        (some (storeStruct createOneTimePaymentResponseFields))
        (⟨[], []⟩ : CreateOneTimePaymentResponse)).err = none
      ∧ (parseResponse ⟨500, NewReader paymentBody⟩
        (some (storeStruct createOneTimePaymentResponseFields))
        (⟨[], []⟩ : CreateOneTimePaymentResponse)).v = ⟨str "abc", str "https://x"⟩)
    ∧ (parseResponse ⟨400, NewReader failureBody⟩ (none : Option (Store Unit)) ()).err.map
        (GoError.withStatusCode 500)
      = (parseResponse ⟨500, NewReader failureBody⟩ (none : Option (Store Unit)) ()).err :=
  ⟨⟨((parseResponse_success_ignores_status 500 200 paymentBody
        (some (storeStruct createOneTimePaymentResponseFields)) ⟨[], []⟩ (by decide)).2.2.2
        _ rfl (by decide) (by decide)).1,
     ((parseResponse_success_ignores_status 500 200 paymentBody
        (some (storeStruct createOneTimePaymentResponseFields)) ⟨[], []⟩ (by decide)).2.2.2
        _ rfl (by decide) (by decide)).2.trans (by decide)⟩,
   (parseResponse_success_ignores_status 400 500 failureBody none () (by decide)).2.2.1⟩

end Mixpay
